import Mathlib

/-!
Shallow embedding of the Splits Coordination Service of AccountantBot-Backend
(the `SplitsService` class, its DTOs and the signature state machine).

Modelling conventions, fixed once for the whole file:

* EVM addresses are hex strings.  The ethers `getAddress` EIP-55 checksum
  normalisation is modelled as lower-casing: the service only ever compares
  addresses case-insensitively, and for well-formed addresses the real
  function satisfies `getAddress a = getAddress b ↔ a.toLower = b.toLower`,
  so canonicalising to lower case preserves every equality the service
  observes.
* JavaScript `Date` values are modelled as unix seconds (`Int`); the source
  always converts a stored date through `Math.floor(getTime() / 1000)`
  before comparing it, so seconds granularity is what the engine sees.
* `BigInt` / `Prisma.Decimal` amounts are exact nonnegative integers: `Nat`.
* ECDSA recovery (`verifyTypedData`) and ISO-8601 date parsing are external
  library calls; they enter the model as function-valued fields of `Env`.
  Chain calls enter as `Except`-valued parameters of the operations.
* Every thrown Nest exception is an `EngineError`.  An operation returns its
  post-state together with the outcome (instead of a bare `Except`), because
  the source persists some writes before throwing: the EXPIRED mark in
  `submitSignature` and the Split row inserted before `ensureWriteContract`
  in `createSplit`.
-/

namespace AB

/-- `SignatureStatus` enum of the Prisma schema. -/
inductive SignatureStatus
  | PENDING
  | VALID
  | USED_ONCHAIN
  | EXPIRED
  | REJECTED
deriving DecidableEq, Repr

/-- Byte strings (`Buffer` / `Uint8Array`) as lists of byte values. -/
abbrev Bytes := List Nat

/-- Nest exception kinds thrown by the service.  `internalError` is
`InternalServerErrorException` (the spec's `misconfigured` kind when raised
by `ensureWriteContract`). -/
inductive EngineError
  | invalidInput (msg : String)
  | notFound (msg : String)
  | conflict (msg : String)
  | internalError (msg : String)
deriving DecidableEq, Repr

/-- One hex digit, lower case (ethers `hexlify` emits lower case). -/
def hexChar (n : Nat) : Char :=
  if n < 10 then Char.ofNat (48 + n) else Char.ofNat (87 + n)

/-- Two lower-case hex digits of one byte. -/
def byteHex (b : Nat) : String :=
  String.mk [hexChar (b / 16 % 16), hexChar (b % 16)]

/-- ethers `hexlify`: `0x` followed by two lower-case hex digits per byte. -/
def hexlify (bs : Bytes) : String :=
  "0x" ++ String.join (bs.map byteHex)

/-- `bufferToHex` of the service: `null` for a missing or empty buffer,
otherwise `hexlify`. -/
def bufferToHex (bs : Bytes) : Option String :=
  if bs.isEmpty then none else some (hexlify bs)

/-- Value of one hex digit character, if any. -/
def hexDigitVal (c : Char) : Option Nat :=
  if 48 ≤ c.toNat ∧ c.toNat ≤ 57 then some (c.toNat - 48)
  else if 97 ≤ c.toNat ∧ c.toNat ≤ 102 then some (c.toNat - 87)
  else if 65 ≤ c.toNat ∧ c.toNat ≤ 70 then some (c.toNat - 55)
  else none

/-- `Buffer.from(str, 'hex')`: decode hex pairs left to right, stopping at
the first pair that is not valid hex (Node's lenient semantics). -/
def hexPairsToBytes : List Char → Bytes
  | c1 :: c2 :: rest =>
    match hexDigitVal c1, hexDigitVal c2 with
    | some h, some l => (16 * h + l) :: hexPairsToBytes rest
    | _, _ => []
  | _ => []

/-- `Buffer.from(s, 'hex')` on a string. -/
def hexToBytes (s : String) : Bytes :=
  hexPairsToBytes s.toList

/-- JavaScript `toLowerCase`, restricted to the ASCII strings the service
compares (addresses and hex blobs are ASCII). -/
def strLower (s : String) : String :=
  String.mk (s.toList.map Char.toLower)

/-- Decimal value of a digits-only string (`BigInt(s)` once the digits
shape is established). -/
def digitsToNat (s : String) : Nat :=
  s.toList.foldl (fun acc c => acc * 10 + (c.toNat - 48)) 0

/-- ethers `getAddress`, modelled as lower-casing (see the file header). -/
def getAddress (s : String) : String :=
  strLower s

/-- Case-insensitive address equality (`a.toLowerCase() === b.toLowerCase()`). -/
def lowEq (a b : String) : Bool :=
  strLower a == strLower b

/-- `SplitParticipant` row (one leg). -/
structure SplitParticipant where
  participant : String
  amount : Nat
  approvedOffchainAt : Option Int
  usedOnchainAt : Option Int
deriving DecidableEq, Repr

/-- `SplitSignature` row (one off-chain approval attempt). -/
structure SignatureRow where
  id : Nat
  participant : String
  amount : Nat
  deadline : Option Int
  salt : Bytes
  signature : Bytes
  status : SignatureStatus
  reason : Option String
deriving DecidableEq, Repr

/-- `Split` row together with its eagerly loaded relations, as returned by
`findSplitOrThrow`. -/
structure Split where
  id : Nat
  chainId : Nat
  contract : String
  splitIdOnchain : Option Nat
  payer : String
  token : String
  totalAmount : Nat
  deadline : Option Int
  metaHash : Option Bytes
  settled : Bool
  participants : List SplitParticipant
  signatures : List SignatureRow
deriving DecidableEq, Repr

/-- EIP-712 domain built by `buildDomain`. -/
structure Domain where
  name : String
  version : String
  chainId : Nat
  verifyingContract : String
deriving DecidableEq, Repr

/-- The `ApproveSplit` message object; every field is serialised exactly as
in the source (decimal strings for the integers, hex strings elsewhere). -/
structure ApproveSplitMessage where
  participant : String
  splitId : String
  token : String
  payer : String
  amount : String
  deadline : String
  salt : String
deriving DecidableEq, Repr

/-- Service configuration plus the two external library functions the
engine calls: `recover` models ethers `verifyTypedData` (the type graph is
the constant `ApproveSplit` schema, so it is not a parameter), and
`dateParse` models `new Date(string).getTime()` in unix seconds, `none`
standing for `Invalid Date` (`NaN`). -/
structure Env where
  chainId : Nat
  contractAddress : String
  eip712Name : String
  eip712Version : String
  hasExecutor : Bool
  recover : Domain → ApproveSplitMessage → String → String
  dateParse : String → Option Int

/-- `buildDomain` of the service. -/
def buildDomain (env : Env) : Domain :=
  { name := env.eip712Name
    version := env.eip712Version
    chainId := env.chainId
    verifyingContract := env.contractAddress }

/-- `resolveSplitIdForSigning`: the on-chain id when present, otherwise the
local database id. -/
def resolveSplitIdForSigning (split : Split) : Nat :=
  match split.splitIdOnchain with
  | some v => v
  | none => split.id

/-- The chain/contract consistency checks of `findSplitOrThrow` (the
existence check is outside the model: operations receive the loaded split). -/
def checkSplitAccess (env : Env) (split : Split) : Except EngineError Unit :=
  if split.chainId ≠ env.chainId then
    .error (.invalidInput "Split pertence a outra chainId")
  else if ¬ lowEq split.contract env.contractAddress then
    .error (.invalidInput "Split utiliza outro contrato coordenador")
  else
    .ok ()

/-- `/^\d+$/` test of `parseDeadline`. -/
def isDigits (s : String) : Bool :=
  s.length > 0 && s.toList.all Char.isDigit

/-- `parseDeadline` of the service.  Result is `(date, unix)`: the stored
`Date` (already in unix seconds, `none` = `null`) and the unix value used in
comparisons.  The guard against `Number` overflow to `Infinity` at
`~1.8e308` is modelled by the same power-of-ten bound; no reachable input
of the claims comes near it. -/
def parseDeadline (env : Env) (deadline : String) :
    Except EngineError (Option Int × Int) :=
  if deadline = "" ∨ deadline = "0" then .ok (none, 0)
  else if isDigits deadline then
    let unix : Nat := digitsToNat deadline
    if unix = 0 then .ok (none, 0)
    else if unix * 1000 ≥ 10 ^ 306 then
      .error (.invalidInput "deadline fora do intervalo suportado")
    else .ok (some (Int.ofNat unix), Int.ofNat unix)
  else
    match env.dateParse deadline with
    | none => .error (.invalidInput "deadline inválido")
    | some t => .ok (some t, t)

/-- `parseIsoDeadline` of the service (used only by `createSplit`). -/
def parseIsoDeadline (env : Env) (value : String) :
    Except EngineError (Option Int) :=
  if value = "0" then .ok none
  else
    match env.dateParse value with
    | none => .error (.invalidInput "deadline inválido")
    | some t => .ok (some t)

/-- `resolveApprovalDeadline` of the service.  The `requestedDeadline`
argument keeps the JavaScript truthiness of `if (requestedDeadline)`: the
empty string behaves like an absent deadline. -/
def resolveApprovalDeadline (env : Env) (requestedDeadline : Option String)
    (splitDeadline : Option Int) : Except EngineError (Option Int × Int) :=
  match requestedDeadline with
  | some req =>
    if req = "" then
      match splitDeadline with
      | none => .ok (none, 0)
      | some sd => .ok (some sd, sd)
    else
      match parseDeadline env req with
      | .error e => .error e
      | .ok (date, unix) =>
        if unix = 0 then .ok (none, 0)
        else
          match splitDeadline with
          | some sd =>
            if unix > sd then
              .error (.invalidInput "Deadline solicitado excede o deadline do split")
            else .ok (date, unix)
          | none => .ok (date, unix)
  | none =>
    match splitDeadline with
    | none => .ok (none, 0)
    | some sd => .ok (some sd, sd)

/-- `BigInt(s)` on a digits-only string (the DTO `Matches` validation
guarantees the digits). -/
def bigIntOfDigits (s : String) : Nat :=
  if isDigits s then digitsToNat s else 0

/-- Unix seconds of a stored signature-row deadline:
`deadline ? BigInt(Math.floor(getTime() / 1000)) : 0n`. -/
def rowDeadlineUnix (row : SignatureRow) : Int :=
  match row.deadline with
  | some d => d
  | none => 0

/-- Fresh autoincrement primary key for a new `SplitSignature` row. -/
def freshSigId (split : Split) : Nat :=
  (split.signatures.map (·.id)).foldr max 0 + 1

/-- The salt-keyed signature-row lookup shared by `submitSignature` and
`prepareItemsFromPayload`:
`sig.participant` equal case-insensitively and
`bufferToHex(sig.salt)?.toLowerCase() === saltHex`. -/
def findSignatureRecord (split : Split) (participant saltHex : String) :
    Option SignatureRow :=
  split.signatures.find? (fun sig =>
    lowEq sig.participant participant &&
      ((bufferToHex sig.salt).map strLower == some saltHex))

/-- `prisma.splitSignature.update({ where: { id } })`. -/
def updateSigRow (split : Split) (targetId : Nat)
    (f : SignatureRow → SignatureRow) : Split :=
  { split with
    signatures := split.signatures.map (fun r => if r.id == targetId then f r else r) }

/-- `prisma.splitParticipant.update({ where: { splitId_participant } })`. -/
def updateParticipantRow (split : Split) (participant : String)
    (f : SplitParticipant → SplitParticipant) : Split :=
  { split with
    participants := split.participants.map
      (fun p => if p.participant == participant then f p else p) }

/-- Return payload of `generateApproveIntent` (the `types` / `primaryType`
fields are the constant `ApproveSplit` schema). -/
structure TypedDataPayload where
  domain : Domain
  message : ApproveSplitMessage
deriving DecidableEq, Repr

/-- `ApproveIntentDto`. -/
structure ApproveIntentDto where
  participant : String
  deadline : Option String
deriving DecidableEq, Repr

/-- `generateApproveIntent`.  The 32 random salt bytes are a parameter. -/
def generateApproveIntent (env : Env) (split : Split) (dto : ApproveIntentDto)
    (salt : Bytes) : Split × Except EngineError TypedDataPayload :=
  match checkSplitAccess env split with
  | .error e => (split, .error e)
  | .ok () =>
  if split.settled then (split, .error (.invalidInput "Split já liquidado")) else
  let participant := getAddress dto.participant
  match split.participants.find? (fun leg => lowEq leg.participant participant) with
  | none => (split, .error (.notFound "Participante não encontrado neste split"))
  | some participantLeg =>
    match resolveApprovalDeadline env dto.deadline split.deadline with
    | .error e => (split, .error e)
    | .ok (deadlineDate, deadlineUnix) =>
      let saltHex := hexlify salt
      let splitIdValue := resolveSplitIdForSigning split
      let message : ApproveSplitMessage :=
        { participant := participant
          splitId := Nat.repr splitIdValue
          token := split.token
          payer := split.payer
          amount := Nat.repr participantLeg.amount
          deadline := toString deadlineUnix
          salt := saltHex }
      let row : SignatureRow :=
        { id := freshSigId split
          participant := participant
          amount := participantLeg.amount
          deadline := deadlineDate
          salt := salt
          signature := []
          status := .PENDING
          reason := none }
      ({ split with signatures := split.signatures ++ [row] },
        .ok { domain := buildDomain env, message := message })

/-- `SubmitSignatureDto` (the DTO file is referenced by the service; its
fields are exactly those the service reads). -/
structure SubmitSignatureDto where
  participant : String
  amount : String
  salt : String
  deadline : Option String
  signature : String
deriving DecidableEq, Repr

/-- The typed-data message `submitSignature` rebuilds before recovery: all
integer fields come from stored state (`participantLeg.amount`, the stored
record deadline, `resolveSplitIdForSigning`). -/
def storedMessage (split : Split) (participant : String)
    (participantLeg : SplitParticipant) (recordDeadlineUnix : Int)
    (saltHex : String) : ApproveSplitMessage :=
  { participant := participant
    splitId := Nat.repr (resolveSplitIdForSigning split)
    token := split.token
    payer := split.payer
    amount := Nat.repr participantLeg.amount
    deadline := toString recordDeadlineUnix
    salt := saltHex }

/-- The optional client-deadline consistency gate of `submitSignature`
(`if (dto.deadline) { ... }`; JavaScript truthiness skips the empty
string, and `provided.unix` is never `null`). -/
def dtoDeadlineGate (env : Env) (dto : SubmitSignatureDto)
    (recordDeadlineUnix : Int) : Except EngineError Unit :=
  match dto.deadline with
  | some d =>
    if d = "" then .ok ()
    else
      match parseDeadline env d with
      | .error e => .error e
      | .ok (_, unix) =>
        if unix ≠ recordDeadlineUnix then
          .error (.invalidInput "deadline não corresponde ao intent registrado")
        else .ok ()
  | none => .ok ()

deriving instance DecidableEq for Except

/-- Result of `submitSignature`: post-state, outcome, and the
`verifyTypedData` invocation when one was made (domain, message,
signature argument). -/
structure SubmitOutcome where
  post : Split
  result : Except EngineError Unit
  verifyCall : Option (Domain × ApproveSplitMessage × String)
deriving DecidableEq, Repr

/-- `submitSignature`.  `now` is `Date.now()` in unix seconds. -/
def submitSignature (env : Env) (now : Int) (split : Split)
    (dto : SubmitSignatureDto) : SubmitOutcome :=
  match checkSplitAccess env split with
  | .error e => ⟨split, .error e, none⟩
  | .ok () =>
  if split.settled then ⟨split, .error (.invalidInput "Split já liquidado"), none⟩ else
  let participant := getAddress dto.participant
  match split.participants.find? (fun leg => lowEq leg.participant participant) with
  | none => ⟨split, .error (.notFound "Participante não encontrado neste split"), none⟩
  | some participantLeg =>
  if Nat.repr participantLeg.amount ≠ dto.amount then
    ⟨split, .error (.invalidInput "amount não corresponde ao valor da perna"), none⟩
  else
  let saltHex := strLower dto.salt
  match findSignatureRecord split participant saltHex with
  | none => ⟨split, .error (.notFound "Salt não encontrado para este participante"), none⟩
  | some signatureRecord =>
  if signatureRecord.status = .USED_ONCHAIN then
    ⟨split, .error (.conflict "Assinatura já utilizada on-chain"), none⟩
  else if signatureRecord.status = .VALID then
    ⟨split, .ok (), none⟩
  else
  let recordDeadlineUnix := rowDeadlineUnix signatureRecord
  match dtoDeadlineGate env dto recordDeadlineUnix with
  | .error e => ⟨split, .error e, none⟩
  | .ok () =>
  let message := storedMessage split participant participantLeg recordDeadlineUnix saltHex
  let recovered := env.recover (buildDomain env) message dto.signature
  if ¬ lowEq recovered participant then
    ⟨split,
      .error (.invalidInput "Assinatura inválida: signer diferente do participante"),
      some (buildDomain env, message, dto.signature)⟩
  else if recordDeadlineUnix ≠ 0 ∧ recordDeadlineUnix < now then
    ⟨updateSigRow split signatureRecord.id (fun r =>
        { r with status := .EXPIRED,
                 reason := some "Assinatura expirada antes da validação" }),
      .error (.invalidInput "Assinatura expirada"),
      some (buildDomain env, message, dto.signature)⟩
  else
    ⟨updateParticipantRow
        (updateSigRow split signatureRecord.id (fun r =>
          { r with status := .VALID,
                   signature := hexToBytes (dto.signature.drop 2) }))
        participant (fun p => { p with approvedOffchainAt := some now }),
      .ok (),
      some (buildDomain env, message, dto.signature)⟩

/-- `SettleItemDto`. -/
structure SettleItemDto where
  participant : String
  amount : String
  deadline : String
  salt : String
  signature : String
deriving DecidableEq, Repr

/-- `SettleSplitDto`. -/
structure SettleSplitDto where
  items : Option (List SettleItemDto)
deriving DecidableEq, Repr

/-- `PreparedSignatureItem`. -/
structure PreparedSignatureItem where
  participant : String
  amount : Nat
  deadline : Int
  salt : String
  signature : String
  signatureRecordId : Nat
deriving DecidableEq, Repr

/-- `xs.map(x => { ... throws ... })`: left-to-right map that stops at the
first thrown exception. -/
def exceptMapM {ε α β : Type} (f : α → Except ε β) : List α → Except ε (List β)
  | [] => .ok []
  | x :: xs =>
    match f x with
    | .error e => .error e
    | .ok y =>
      match exceptMapM f xs with
      | .error e => .error e
      | .ok ys => .ok (y :: ys)

/-- The per-item body of `prepareItemsFromPayload`. -/
def payloadItemToPrepared (split : Split) (item : SettleItemDto) :
    Except EngineError PreparedSignatureItem :=
  let participant := getAddress item.participant
  match split.participants.find? (fun p => lowEq p.participant participant) with
  | none => .error (.notFound ("Participante " ++ participant ++ " não encontrado no split"))
  | some leg =>
  if Nat.repr leg.amount ≠ item.amount then
    .error (.invalidInput ("Valor divergente para participante " ++ participant))
  else
  match findSignatureRecord split participant (strLower item.salt) with
  | none => .error (.notFound ("Salt não registrado para " ++ participant))
  | some signatureRecord =>
  if signatureRecord.status ≠ .VALID then
    .error (.invalidInput ("Assinatura para " ++ participant ++ " não está com status VALID"))
  else if signatureRecord.signature.isEmpty then
    .error (.invalidInput ("Assinatura armazenada ausente para " ++ participant))
  else
  let recordDeadlineUnix := rowDeadlineUnix signatureRecord
  let payloadDeadline : Int := Int.ofNat (bigIntOfDigits item.deadline)
  if recordDeadlineUnix ≠ payloadDeadline then
    .error (.invalidInput ("Deadline fornecido difere do registrado para " ++ participant))
  else
  match bufferToHex signatureRecord.signature with
  | none => .error (.invalidInput ("Assinatura registrada inválida para " ++ participant))
  | some storedSignatureHex =>
  if strLower storedSignatureHex ≠ strLower item.signature then
    .error (.invalidInput "Assinatura fornecida não corresponde ao registro")
  else
    .ok { participant := participant
          amount := bigIntOfDigits item.amount
          deadline := payloadDeadline
          salt := item.salt
          signature := item.signature
          signatureRecordId := signatureRecord.id }

/-- `prepareItemsFromPayload`. -/
def prepareItemsFromPayload (split : Split) (payload : List SettleItemDto) :
    Except EngineError (List PreparedSignatureItem) :=
  exceptMapM (payloadItemToPrepared split) payload

/-- The per-row body of `prepareItemsFromDatabase`. -/
def dbRowToPrepared (split : Split) (sig : SignatureRow) :
    Except EngineError PreparedSignatureItem :=
  if sig.signature.isEmpty then
    .error (.invalidInput ("Assinatura não armazenada para participante " ++ sig.participant))
  else
  match split.participants.find? (fun leg => lowEq leg.participant sig.participant) with
  | none => .error (.notFound ("Participante " ++ sig.participant ++ " não encontrado no split"))
  | some participantLeg =>
  let deadlineUnix := rowDeadlineUnix sig
  match bufferToHex sig.salt with
  | none => .error (.invalidInput ("Salt inválido armazenado para participante " ++ sig.participant))
  | some saltHex =>
  match bufferToHex sig.signature with
  | none => .error (.invalidInput ("Assinatura armazenada inválida para participante " ++ sig.participant))
  | some signatureHex =>
    .ok { participant := sig.participant
          amount := participantLeg.amount
          deadline := deadlineUnix
          salt := saltHex
          signature := signatureHex
          signatureRecordId := sig.id }

/-- `prepareItemsFromDatabase`: the stored rows with status VALID, in their
enumeration order. -/
def prepareItemsFromDatabase (split : Split) :
    Except EngineError (List PreparedSignatureItem) :=
  exceptMapM (dbRowToPrepared split)
    (split.signatures.filter (fun sig => sig.status == .VALID))

/-- The `v`/`r`/`s` projections of an ethers v6 `Signature`. -/
structure SigVRS where
  v : Nat
  r : String
  s : String
deriving DecidableEq, Repr

/-- ethers v6 `Signature.from` on a 65-byte hex signature: `r` is bytes
0–31, `s` is bytes 32–63 and must be canonical (high bit of its first byte
clear, else the `non-canonical s` assertion throws), and the final byte is
normalised by `getNormalizedV`: `0`/`27` → 27, `1`/`28` → 28, `≥ 35`
(EIP-155) → 27 for odd and 28 for even, anything else throws `invalid v`.
Errors carry the assertion reason.  The 64-byte EIP-2098 compact branch is
not modelled: the service's DTO validation (`0x` + 130 hex chars) and the
stored-signature write path admit only 65-byte signatures. -/
def signatureFrom (sigHex : String) : Except String SigVRS :=
  let bytes := hexToBytes (sigHex.drop 2)
  if bytes.length ≠ 65 then .error "invalid raw signature length"
  else if 128 ≤ (bytes.drop 32).headD 0 then .error "non-canonical s"
  else
    let vRaw := (bytes.drop 64).headD 0
    let rHex := hexlify (bytes.take 32)
    let sHex := hexlify ((bytes.drop 32).take 32)
    if vRaw = 0 ∨ vRaw = 27 then .ok { v := 27, r := rHex, s := sHex }
    else if vRaw = 1 ∨ vRaw = 28 then .ok { v := 28, r := rHex, s := sHex }
    else if 35 ≤ vRaw then
      .ok { v := if vRaw % 2 = 1 then 27 else 28, r := rHex, s := sHex }
    else .error "invalid v"

/-- The argument tuple of the on-chain `settleSplit` contract call. -/
structure SettleCall where
  splitId : Nat
  participants : List String
  amounts : List Nat
  deadlines : List Int
  salts : List String
  vs : List Nat
  rs : List String
  ss : List String
deriving DecidableEq, Repr

/-- Result of `settleSplit`: post-state, outcome (`txHash` on success), and
the contract call when one was issued. -/
structure SettleOutcome where
  post : Split
  result : Except EngineError String
  call : Option SettleCall
deriving DecidableEq, Repr

/-- Item assembly of `settleSplit`: the explicit payload when one with at
least one element was given, the stored VALID rows otherwise. -/
def settleItems (split : Split) (dto : SettleSplitDto) :
    Except EngineError (List PreparedSignatureItem) :=
  match dto.items with
  | some payload =>
    if payload.length > 0 then prepareItemsFromPayload split payload
    else prepareItemsFromDatabase split
  | none => prepareItemsFromDatabase split

/-- The parallel argument arrays `settleSplit` passes to the contract:
per-field projections of the assembled items in their order, with `sigs`
the `Signature.from` results of the items' signatures in that same order. -/
def mkSettleCall (split : Split) (items : List PreparedSignatureItem)
    (sigs : List SigVRS) : SettleCall :=
  { splitId := resolveSplitIdForSigning split
    participants := items.map (·.participant)
    amounts := items.map (·.amount)
    deadlines := items.map (·.deadline)
    salts := items.map (·.salt)
    vs := sigs.map (·.v)
    rs := sigs.map (·.r)
    ss := sigs.map (·.s) }

/-- The post-settlement transaction: `settled=true`, each item's
participant gets `usedOnchainAt`, each item's signature row goes
USED_ONCHAIN. -/
def settlePost (now : Int) (split : Split) (items : List PreparedSignatureItem) : Split :=
  items.foldl
    (fun st item => updateSigRow st item.signatureRecordId
      (fun r => { r with status := .USED_ONCHAIN }))
    (items.foldl
      (fun st item => updateParticipantRow st item.participant
        (fun p => { p with usedOnchainAt := some now }))
      { split with settled := true })

/-- `settleSplit`.  `chainSettle` models
`contract.settleSplit(...)` followed by `tx.wait()`: the error message on
failure, the receipt hash on success. -/
def settleSplit (env : Env) (chainSettle : SettleCall → Except String String)
    (now : Int) (split : Split) (dto : SettleSplitDto) : SettleOutcome :=
  match checkSplitAccess env split with
  | .error e => ⟨split, .error e, none⟩
  | .ok () =>
  if split.settled then ⟨split, .error (.invalidInput "Split já liquidado"), none⟩ else
  match settleItems split dto with
  | .error e => ⟨split, .error e, none⟩
  | .ok items =>
  if items.length ≠ split.participants.length then
    ⟨split, .error (.invalidInput "Número de assinaturas não corresponde aos participantes"), none⟩
  else if ¬ env.hasExecutor then
    ⟨split, .error (.internalError "Executor não configurado (configure EXECUTOR_PRIVATE_KEY)"), none⟩
  else
  match exceptMapM signatureFrom (items.map (·.signature)) with
  | .error msg =>
    -- `Signature.from` runs while building the argument arrays, before the
    -- try/catch; its assertion escapes the service uncaught and surfaces as
    -- an internal server error, with no contract call issued
    ⟨split, .error (.internalError msg), none⟩
  | .ok sigs =>
  match chainSettle (mkSettleCall split items sigs) with
  | .error msg =>
    ⟨split, .error (.invalidInput ("Falha ao liquidar split on-chain: " ++ msg)),
      some (mkSettleCall split items sigs)⟩
  | .ok txHash =>
    ⟨settlePost now split items, .ok txHash, some (mkSettleCall split items sigs)⟩

/-- `SplitLegDto`. -/
structure SplitLegDto where
  participant : String
  amount : String
deriving DecidableEq, Repr

/-- `CreateSplitDto`. -/
structure CreateSplitDto where
  payer : String
  token : String
  legs : List SplitLegDto
  deadline : Option String
  metaHash : Option String
  createOnchain : Bool
deriving DecidableEq, Repr

/-- One decoded receipt log: its emitting address and, when
`interface.parseLog` succeeds, the event name and `splitId` argument. -/
structure LogEntry where
  address : String
  parsed : Option (String × Nat)
deriving DecidableEq, Repr

/-- A mined transaction receipt. -/
structure Receipt where
  hash : String
  logs : List LogEntry
deriving DecidableEq, Repr

/-- The `SplitCreated` scan of `createSplit`: first log emitted by the
coordinator address that decodes to a `SplitCreated` event; logs from other
addresses and decode failures are skipped. -/
def findSplitCreatedId (env : Env) : List LogEntry → Option Nat
  | [] => none
  | log :: rest =>
    if ¬ lowEq log.address env.contractAddress then findSplitCreatedId env rest
    else
      match log.parsed with
      | some (name, sid) =>
        if name = "SplitCreated" then some sid else findSplitCreatedId env rest
      | none => findSplitCreatedId env rest

/-- The validated inputs of `createSplit` after its precondition section. -/
structure CreateChecked where
  payer : String
  token : String
  legs : List (String × Nat)
  totalAmount : Nat
  deadlineDate : Option Int
  metaHashBytes : Option Bytes
deriving DecidableEq, Repr

/-- The precondition section of `createSplit`, in source order: address
normalisation, nonempty legs, positive amounts (`leg.amount <= 0n`; the DTO
digits validation excludes negatives, so the check is `= 0`), participant
uniqueness via the `Set` cardinality, positive total, deadline and metaHash
parsing.  `dto.deadline ? ... : null` keeps JavaScript truthiness. -/
def createSplitChecks (env : Env) (dto : CreateSplitDto) :
    Except EngineError CreateChecked :=
  let payer := getAddress dto.payer
  let token := getAddress dto.token
  let legs := dto.legs.map (fun leg => (getAddress leg.participant, bigIntOfDigits leg.amount))
  if legs.length = 0 then
    .error (.invalidInput "Ao menos um participante é necessário")
  else if legs.any (fun leg => leg.2 = 0) then
    .error (.invalidInput "amount deve ser > 0")
  else if ((legs.map (·.1)).dedup).length ≠ legs.length then
    .error (.conflict "Participantes duplicados detectados")
  else
  let totalAmount := legs.foldl (fun acc leg => acc + leg.2) 0
  if totalAmount = 0 then
    .error (.invalidInput "totalAmount calculado inválido")
  else
  match (match dto.deadline with
         | some d => if d = "" then .ok none else parseIsoDeadline env d
         | none => .ok none : Except EngineError (Option Int)) with
  | .error e => .error e
  | .ok deadlineDate =>
    let metaHashBytes :=
      match dto.metaHash with
      | some m => if m = "" ∨ m = "0x" then none else some (hexToBytes (m.drop 2))
      | none => none
    .ok { payer := payer, token := token, legs := legs, totalAmount := totalAmount
          deadlineDate := deadlineDate, metaHashBytes := metaHashBytes }

/-- The Split row inserted by `createSplit` (with its participant rows;
`settled=false`, `splitIdOnchain=null`). -/
def insertedSplitRow (env : Env) (c : CreateChecked) (newId : Nat) : Split :=
  { id := newId
    chainId := env.chainId
    contract := env.contractAddress
    splitIdOnchain := none
    payer := c.payer
    token := c.token
    totalAmount := c.totalAmount
    deadline := c.deadlineDate
    metaHash := c.metaHashBytes
    settled := false
    participants := c.legs.map (fun leg =>
      { participant := leg.1, amount := leg.2
        approvedOffchainAt := none, usedOnchainAt := none })
    signatures := [] }

/-- Result of `createSplit` over the Split table: post-state of the table
and the `{ id, txHash }` response or the thrown error. -/
structure CreateOutcome where
  db : List Split
  result : Except EngineError (Nat × Option String)
deriving DecidableEq, Repr

/-- `createSplit`.  `db` is the Split table, `newId` the autoincrement key
of the insert, `chainCreate` the outcome of
`contract.createSplit(...)` + `tx.wait()`. -/
def createSplit (env : Env) (chainCreate : Except String Receipt)
    (db : List Split) (dto : CreateSplitDto) (newId : Nat) : CreateOutcome :=
  match createSplitChecks env dto with
  | .error e => ⟨db, .error e⟩
  | .ok c =>
  let split := insertedSplitRow env c newId
  let db1 := db ++ [split]
  if ¬ dto.createOnchain then ⟨db1, .ok (split.id, none)⟩
  else if ¬ env.hasExecutor then
    ⟨db1, .error (.internalError "Executor não configurado (configure EXECUTOR_PRIVATE_KEY)")⟩
  else
    match chainCreate with
    | .error msg =>
      ⟨db1.filter (fun s => s.id != newId),
        .error (.invalidInput ("Falha ao criar split on-chain: " ++ msg))⟩
    | .ok receipt =>
      match findSplitCreatedId env receipt.logs with
      | some onchainId =>
        ⟨db1.map (fun s => if s.id == newId then { s with splitIdOnchain := some onchainId } else s),
          .ok (split.id, some receipt.hash)⟩
      | none => ⟨db1, .ok (split.id, some receipt.hash)⟩

/-! ### Concrete test fixtures (used by the witness theorems) -/

/-- A well-formed 65-byte signature as a hex string: 32 `r` bytes 0x11,
32 canonical `s` bytes 0x22, and the `v` byte 0x1b (27). -/
def fxGoodSig : String :=
  "0x111111111111111111111111111111111111111111111111111111111111111122222222222222222222222222222222222222222222222222222222222222221b"

/-- A second well-formed 65-byte signature (`v` byte 0x1c = 28). -/
def fxOtherSig : String :=
  "0x333333333333333333333333333333333333333333333333333333333333333344444444444444444444444444444444444444444444444444444444444444441c"

/-- A 32-byte salt. -/
def fxSalt : Bytes := List.replicate 32 34

/-- A different 32-byte salt. -/
def fxSaltB : Bytes := List.replicate 32 68

/-- Concrete environment: the recovery oracle returns the message's
participant for `fxGoodSig` and an unrelated signer otherwise. -/
def fxEnv : Env :=
  { chainId := 534351
    contractAddress := "0xc0"
    eip712Name := "Accountant"
    eip712Version := "1"
    hasExecutor := true
    recover := fun _ m sig => if sig = fxGoodSig then m.participant else "0xdead"
    dateParse := fun _ => none }

/-- Same environment without an executor key. -/
def fxEnvNoExec : Env :=
  { fxEnv with hasExecutor := false }

/-- One leg for participant `0xaa`. -/
def fxLegA : SplitParticipant :=
  { participant := "0xaa", amount := 12500000
    approvedOffchainAt := none, usedOnchainAt := none }

/-- One leg for participant `0xbb`. -/
def fxLegB : SplitParticipant :=
  { participant := "0xbb", amount := 12500000
    approvedOffchainAt := none, usedOnchainAt := none }

/-- A PENDING intent row for `0xaa` with stored deadline 100. -/
def fxRowPending : SignatureRow :=
  { id := 1, participant := "0xaa", amount := 12500000, deadline := some 100
    salt := fxSalt, signature := [], status := .PENDING, reason := none }

/-- A split on the configured chain and contract, one leg, one PENDING row. -/
def fxSplit : Split :=
  { id := 42, chainId := 534351, contract := "0xc0", splitIdOnchain := none
    payer := "0x0a", token := "0x0b", totalAmount := 12500000, deadline := none
    metaHash := none, settled := false
    participants := [fxLegA], signatures := [fxRowPending] }

/-- Submission DTO matching `fxRowPending`, carrying `fxGoodSig`. -/
def fxSubmitDto : SubmitSignatureDto :=
  { participant := "0xaa", amount := "12500000", salt := hexlify fxSalt
    deadline := none, signature := fxGoodSig }

/-! ### Evaluation lemmas about `submitSignature`

Each lemma fixes one branch of the source control flow by hypotheses on the
stored state and evaluates the call on that branch. -/

/-- The post-state of the EXPIRED mark. -/
def expiredPost (split : Split) (recId : Nat) : Split :=
  updateSigRow split recId (fun r =>
    { r with status := .EXPIRED, reason := some "Assinatura expirada antes da validação" })

/-- The post-state of a successful submission. -/
def validPost (now : Int) (split : Split) (recId : Nat) (participant sigHex : String) : Split :=
  updateParticipantRow
    (updateSigRow split recId (fun r =>
      { r with status := .VALID, signature := hexToBytes (sigHex.drop 2) }))
    participant (fun p => { p with approvedOffchainAt := some now })

/-- `submitSignature` on a row already USED_ONCHAIN: conflict, no change. -/
theorem submit_used_onchain (env : Env) (now : Int) (split : Split)
    (dto : SubmitSignatureDto) (rec : SignatureRow)
    (hacc : checkSplitAccess env split = .ok ())
    (hset : split.settled = false)
    (hleg : (split.participants.find? (fun l => lowEq l.participant (getAddress dto.participant))).isSome = true)
    (hamt : ∀ leg, split.participants.find? (fun l => lowEq l.participant (getAddress dto.participant)) = some leg →
      Nat.repr leg.amount = dto.amount)
    (hrec : findSignatureRecord split (getAddress dto.participant) (strLower dto.salt) = some rec)
    (hused : rec.status = .USED_ONCHAIN) :
    submitSignature env now split dto =
      ⟨split, .error (.conflict "Assinatura já utilizada on-chain"), none⟩ := by
  obtain ⟨leg, hleg'⟩ := Option.isSome_iff_exists.mp hleg
  have hamt' := hamt leg hleg'
  unfold submitSignature
  simp [hacc, hset, hleg', hamt', hrec, hused]

/-- `submitSignature` on a row already VALID: idempotent success, no change,
whatever the submitted signature bytes are. -/
theorem submit_already_valid (env : Env) (now : Int) (split : Split)
    (dto : SubmitSignatureDto) (rec : SignatureRow)
    (hacc : checkSplitAccess env split = .ok ())
    (hset : split.settled = false)
    (hleg : (split.participants.find? (fun l => lowEq l.participant (getAddress dto.participant))).isSome = true)
    (hamt : ∀ leg, split.participants.find? (fun l => lowEq l.participant (getAddress dto.participant)) = some leg →
      Nat.repr leg.amount = dto.amount)
    (hrec : findSignatureRecord split (getAddress dto.participant) (strLower dto.salt) = some rec)
    (hvalid : rec.status = .VALID) :
    submitSignature env now split dto = ⟨split, .ok (), none⟩ := by
  obtain ⟨leg, hleg'⟩ := Option.isSome_iff_exists.mp hleg
  have hamt' := hamt leg hleg'
  unfold submitSignature
  simp [hacc, hset, hleg', hamt', hrec, hvalid]

/-- `submitSignature` when the recovered signer differs case-insensitively
from the participant: the typed data passed to recovery was rebuilt from
stored state (`storedMessage`), the call fails with the invalid-input
signer error, and the state is unchanged. -/
theorem submit_signer_mismatch (env : Env) (now : Int) (split : Split)
    (dto : SubmitSignatureDto) (leg : SplitParticipant) (rec : SignatureRow)
    (hacc : checkSplitAccess env split = .ok ())
    (hset : split.settled = false)
    (hleg : split.participants.find? (fun l => lowEq l.participant (getAddress dto.participant)) = some leg)
    (hamt : Nat.repr leg.amount = dto.amount)
    (hrec : findSignatureRecord split (getAddress dto.participant) (strLower dto.salt) = some rec)
    (hused : rec.status ≠ .USED_ONCHAIN)
    (hvalid : rec.status ≠ .VALID)
    (hgate : dtoDeadlineGate env dto (rowDeadlineUnix rec) = .ok ())
    (hmis : lowEq (env.recover (buildDomain env)
        (storedMessage split (getAddress dto.participant) leg (rowDeadlineUnix rec) (strLower dto.salt))
        dto.signature) (getAddress dto.participant) = false) :
    submitSignature env now split dto =
      ⟨split, .error (.invalidInput "Assinatura inválida: signer diferente do participante"),
        some (buildDomain env,
          storedMessage split (getAddress dto.participant) leg (rowDeadlineUnix rec) (strLower dto.salt),
          dto.signature)⟩ := by
  unfold submitSignature
  simp [hacc, hset, hleg, hamt, hrec, hused, hvalid, hgate, hmis]

/-- `submitSignature` when the signer matches but the stored deadline is
non-zero and in the past: the row is marked EXPIRED with the recorded
reason and the call fails with the expiry error. -/
theorem submit_expired (env : Env) (now : Int) (split : Split)
    (dto : SubmitSignatureDto) (leg : SplitParticipant) (rec : SignatureRow)
    (hacc : checkSplitAccess env split = .ok ())
    (hset : split.settled = false)
    (hleg : split.participants.find? (fun l => lowEq l.participant (getAddress dto.participant)) = some leg)
    (hamt : Nat.repr leg.amount = dto.amount)
    (hrec : findSignatureRecord split (getAddress dto.participant) (strLower dto.salt) = some rec)
    (hused : rec.status ≠ .USED_ONCHAIN)
    (hvalid : rec.status ≠ .VALID)
    (hgate : dtoDeadlineGate env dto (rowDeadlineUnix rec) = .ok ())
    (hmatch : lowEq (env.recover (buildDomain env)
        (storedMessage split (getAddress dto.participant) leg (rowDeadlineUnix rec) (strLower dto.salt))
        dto.signature) (getAddress dto.participant) = true)
    (hdl : rowDeadlineUnix rec ≠ 0)
    (hlt : rowDeadlineUnix rec < now) :
    submitSignature env now split dto =
      ⟨expiredPost split rec.id, .error (.invalidInput "Assinatura expirada"),
        some (buildDomain env,
          storedMessage split (getAddress dto.participant) leg (rowDeadlineUnix rec) (strLower dto.salt),
          dto.signature)⟩ := by
  unfold submitSignature expiredPost
  simp [hacc, hset, hleg, hamt, hrec, hused, hvalid, hgate, hmatch, hdl, hlt]

/-- `submitSignature` when the signer matches and the stored deadline does
not force expiry: the row becomes VALID with the submitted bytes and the
participant's `approvedOffchainAt` is set. -/
theorem submit_success (env : Env) (now : Int) (split : Split)
    (dto : SubmitSignatureDto) (leg : SplitParticipant) (rec : SignatureRow)
    (hacc : checkSplitAccess env split = .ok ())
    (hset : split.settled = false)
    (hleg : split.participants.find? (fun l => lowEq l.participant (getAddress dto.participant)) = some leg)
    (hamt : Nat.repr leg.amount = dto.amount)
    (hrec : findSignatureRecord split (getAddress dto.participant) (strLower dto.salt) = some rec)
    (hused : rec.status ≠ .USED_ONCHAIN)
    (hvalid : rec.status ≠ .VALID)
    (hgate : dtoDeadlineGate env dto (rowDeadlineUnix rec) = .ok ())
    (hmatch : lowEq (env.recover (buildDomain env)
        (storedMessage split (getAddress dto.participant) leg (rowDeadlineUnix rec) (strLower dto.salt))
        dto.signature) (getAddress dto.participant) = true)
    (hnl : ¬ (rowDeadlineUnix rec ≠ 0 ∧ rowDeadlineUnix rec < now)) :
    submitSignature env now split dto =
      ⟨validPost now split rec.id (getAddress dto.participant) dto.signature, .ok (),
        some (buildDomain env,
          storedMessage split (getAddress dto.participant) leg (rowDeadlineUnix rec) (strLower dto.salt),
          dto.signature)⟩ := by
  unfold submitSignature validPost
  simp [hacc, hset, hleg, hamt, hrec, hused, hvalid, hgate, hmatch, hnl]

/-! ### Evaluation lemmas about `generateApproveIntent`, `settleSplit`,
`createSplit` -/

/-- The `SplitSignature` row inserted by a successful intent. -/
def intentRow (split : Split) (participant : String) (leg : SplitParticipant)
    (deadlineDate : Option Int) (salt : Bytes) : SignatureRow :=
  { id := freshSigId split
    participant := participant
    amount := leg.amount
    deadline := deadlineDate
    salt := salt
    signature := []
    status := .PENDING
    reason := none }

/-- The typed-data message returned by a successful intent. -/
def intentMessage (split : Split) (participant : String) (leg : SplitParticipant)
    (deadlineUnix : Int) (salt : Bytes) : ApproveSplitMessage :=
  { participant := participant
    splitId := Nat.repr (resolveSplitIdForSigning split)
    token := split.token
    payer := split.payer
    amount := Nat.repr leg.amount
    deadline := toString deadlineUnix
    salt := hexlify salt }

/-- Successful `generateApproveIntent`: appends one PENDING row and returns
the typed data whose splitId is the resolved one. -/
theorem generateIntent_success (env : Env) (split : Split) (dto : ApproveIntentDto)
    (salt : Bytes) (leg : SplitParticipant) (deadlineDate : Option Int) (deadlineUnix : Int)
    (hacc : checkSplitAccess env split = .ok ())
    (hset : split.settled = false)
    (hleg : split.participants.find? (fun l => lowEq l.participant (getAddress dto.participant)) = some leg)
    (hdl : resolveApprovalDeadline env dto.deadline split.deadline = .ok (deadlineDate, deadlineUnix)) :
    generateApproveIntent env split dto salt =
      ({ split with signatures := split.signatures ++
          [intentRow split (getAddress dto.participant) leg deadlineDate salt] },
        .ok { domain := buildDomain env
              message := intentMessage split (getAddress dto.participant) leg deadlineUnix salt }) := by
  unfold generateApproveIntent intentRow intentMessage
  simp [hacc, hset, hleg, hdl]

/-- `settleSplit` when the chain call succeeds: the contract receives
`mkSettleCall`, the transaction hash is returned and `settlePost` commits. -/
theorem settle_chain_ok (env : Env) (chainSettle : SettleCall → Except String String)
    (now : Int) (split : Split) (dto : SettleSplitDto)
    (items : List PreparedSignatureItem) (sigs : List SigVRS) (txHash : String)
    (hacc : checkSplitAccess env split = .ok ())
    (hset : split.settled = false)
    (hitems : settleItems split dto = .ok items)
    (hlen : items.length = split.participants.length)
    (hexec : env.hasExecutor = true)
    (hsigs : exceptMapM signatureFrom (items.map (·.signature)) = .ok sigs)
    (hchain : chainSettle (mkSettleCall split items sigs) = .ok txHash) :
    settleSplit env chainSettle now split dto =
      ⟨settlePost now split items, .ok txHash, some (mkSettleCall split items sigs)⟩ := by
  unfold settleSplit
  simp [hacc, hset, hitems, hlen, hexec, hsigs, hchain]

/-- `settleSplit` when the chain call fails: the contract received
`mkSettleCall`, the error carries the chain message, nothing commits. -/
theorem settle_chain_fail (env : Env) (chainSettle : SettleCall → Except String String)
    (now : Int) (split : Split) (dto : SettleSplitDto)
    (items : List PreparedSignatureItem) (sigs : List SigVRS) (msg : String)
    (hacc : checkSplitAccess env split = .ok ())
    (hset : split.settled = false)
    (hitems : settleItems split dto = .ok items)
    (hlen : items.length = split.participants.length)
    (hexec : env.hasExecutor = true)
    (hsigs : exceptMapM signatureFrom (items.map (·.signature)) = .ok sigs)
    (hchain : chainSettle (mkSettleCall split items sigs) = .error msg) :
    settleSplit env chainSettle now split dto =
      ⟨split, .error (.invalidInput ("Falha ao liquidar split on-chain: " ++ msg)),
        some (mkSettleCall split items sigs)⟩ := by
  unfold settleSplit
  simp [hacc, hset, hitems, hlen, hexec, hsigs, hchain]

/-- `settleSplit` when the assembled item count differs from the
participant count: invalid-input, no contract call, no change. -/
theorem settle_count_mismatch (env : Env) (chainSettle : SettleCall → Except String String)
    (now : Int) (split : Split) (dto : SettleSplitDto)
    (items : List PreparedSignatureItem)
    (hacc : checkSplitAccess env split = .ok ())
    (hset : split.settled = false)
    (hitems : settleItems split dto = .ok items)
    (hlen : items.length ≠ split.participants.length) :
    settleSplit env chainSettle now split dto =
      ⟨split, .error (.invalidInput "Número de assinaturas não corresponde aos participantes"),
        none⟩ := by
  unfold settleSplit
  simp [hacc, hset, hitems, hlen]

/-- Without an executor key, `settleSplit` never calls the chain, never
succeeds and never changes state, whatever else happens. -/
theorem settle_no_executor (env : Env) (chainSettle : SettleCall → Except String String)
    (now : Int) (split : Split) (dto : SettleSplitDto)
    (hexec : env.hasExecutor = false) :
    (settleSplit env chainSettle now split dto).post = split ∧
    (settleSplit env chainSettle now split dto).call = none ∧
    ∃ e, (settleSplit env chainSettle now split dto).result = .error e := by
  unfold settleSplit
  repeat' split
  all_goals simp_all

/-- `createSplit` with `createOnchain=true` and no executor key: the error
is the misconfiguration error, but the Split row has already been inserted
and remains in the table. -/
theorem create_no_executor (env : Env) (chainCreate : Except String Receipt)
    (db : List Split) (dto : CreateSplitDto) (newId : Nat) (c : CreateChecked)
    (hchk : createSplitChecks env dto = .ok c)
    (honchain : dto.createOnchain = true)
    (hexec : env.hasExecutor = false) :
    createSplit env chainCreate db dto newId =
      ⟨db ++ [insertedSplitRow env c newId],
        .error (.internalError "Executor não configurado (configure EXECUTOR_PRIVATE_KEY)")⟩ := by
  unfold createSplit
  simp [hchk, honchain, hexec]

/-- `createSplit` when the on-chain call fails after the insert: the
freshly inserted row is deleted again and the error carries the chain
message. -/
theorem create_chain_fail (env : Env) (db : List Split) (dto : CreateSplitDto)
    (newId : Nat) (c : CreateChecked) (msg : String)
    (hchk : createSplitChecks env dto = .ok c)
    (honchain : dto.createOnchain = true)
    (hexec : env.hasExecutor = true)
    (hfresh : ∀ s ∈ db, s.id ≠ newId) :
    createSplit env (.error msg) db dto newId =
      ⟨db, .error (.invalidInput ("Falha ao criar split on-chain: " ++ msg))⟩ := by
  unfold createSplit
  simp only [hchk, honchain, hexec]
  simp only [List.filter_append]
  have h1 : db.filter (fun s => s.id != newId) = db := by
    apply List.filter_eq_self.mpr
    intro s hs
    simpa using hfresh s hs
  have h2 : (insertedSplitRow env c newId).id = newId := rfl
  simp [h1, h2]

/-- `createSplit` when the receipt arrives but no `SplitCreated` event is
decoded: the Split stays persisted with `splitIdOnchain=null` and the call
succeeds with the receipt hash. -/
theorem create_receipt_no_event (env : Env) (db : List Split) (dto : CreateSplitDto)
    (newId : Nat) (c : CreateChecked) (receipt : Receipt)
    (hchk : createSplitChecks env dto = .ok c)
    (honchain : dto.createOnchain = true)
    (hexec : env.hasExecutor = true)
    (hev : findSplitCreatedId env receipt.logs = none) :
    createSplit env (.ok receipt) db dto newId =
      ⟨db ++ [insertedSplitRow env c newId], .ok (newId, some receipt.hash)⟩ := by
  unfold createSplit
  simp [hchk, honchain, hexec, hev, insertedSplitRow]

/-! ### List and update helpers -/

/-- `List.find?` commutes with a map that preserves the predicate. -/
theorem find?_map_of_pred {α : Type} (g : α → α) (p : α → Bool) (l : List α)
    (hp : ∀ a, p (g a) = p a) : (l.map g).find? p = (l.find? p).map g := by
  induction l with
  | nil => rfl
  | cons x xs ih =>
    by_cases h : p x = true
    · simp [List.find?_cons, hp, h]
    · simp [List.find?_cons, hp, h, ih]

/-- `updateSigRow` does not touch the participant table. -/
theorem participants_updateSigRow (split : Split) (i : Nat) (f : SignatureRow → SignatureRow) :
    (updateSigRow split i f).participants = split.participants := rfl

/-- `updateParticipantRow` does not touch the signature table. -/
theorem signatures_updateParticipantRow (split : Split) (q : String)
    (f : SplitParticipant → SplitParticipant) :
    (updateParticipantRow split q f).signatures = split.signatures := rfl

/-- Signature-record lookup after a row update keyed by id: the found row
is the (possibly updated) previously found row, provided the update
preserves the participant and salt fields. -/
theorem findSignatureRecord_updateSigRow (split : Split) (i : Nat)
    (f : SignatureRow → SignatureRow) (q salt : String)
    (hf : ∀ r, (f r).participant = r.participant ∧ (f r).salt = r.salt) :
    findSignatureRecord (updateSigRow split i f) q salt
      = (findSignatureRecord split q salt).map (fun r => if r.id == i then f r else r) := by
  unfold findSignatureRecord updateSigRow
  apply find?_map_of_pred
  intro a
  by_cases h : a.id == i <;> simp [h, (hf a).1, (hf a).2]

/-- Leg lookup after a participant update: the found leg is the (possibly
updated) previously found leg, provided the update preserves the
participant field. -/
theorem findLeg_updateParticipantRow (split : Split) (q' : String)
    (f : SplitParticipant → SplitParticipant) (q : String)
    (hf : ∀ pt, (f pt).participant = pt.participant) :
    (updateParticipantRow split q' f).participants.find? (fun l => lowEq l.participant q)
      = (split.participants.find? (fun l => lowEq l.participant q)).map
          (fun pt => if pt.participant == q' then f pt else pt) := by
  unfold updateParticipantRow
  apply find?_map_of_pred
  intro a
  by_cases h : a.participant == q' <;> simp [h, hf a]

/-- Exhaustive case analysis of `submitSignature`: either an error or
idempotent success leaving the state unchanged, or the EXPIRED mark, or
the VALID transition; the two mutating branches pin the looked-up row and
its status preconditions. -/
theorem submit_cases (env : Env) (now : Int) (split : Split)
    (dto : SubmitSignatureDto) (o : SubmitOutcome)
    (h : submitSignature env now split dto = o) :
    (∃ e vc, o = ⟨split, .error e, vc⟩) ∨
    (o = ⟨split, .ok (), none⟩ ∧
      ∃ rec, findSignatureRecord split (getAddress dto.participant) (strLower dto.salt) = some rec ∧
        rec.status = .VALID) ∨
    (∃ rec vc,
      findSignatureRecord split (getAddress dto.participant) (strLower dto.salt) = some rec ∧
      ¬ rec.status = .USED_ONCHAIN ∧ ¬ rec.status = .VALID ∧
      (((rowDeadlineUnix rec ≠ 0 ∧ rowDeadlineUnix rec < now) ∧
          o = ⟨expiredPost split rec.id, .error (.invalidInput "Assinatura expirada"), vc⟩) ∨
        (¬ (rowDeadlineUnix rec ≠ 0 ∧ rowDeadlineUnix rec < now) ∧
          o = ⟨validPost now split rec.id (getAddress dto.participant) dto.signature, .ok (), vc⟩))) := by
  unfold submitSignature at h
  simp only [] at h
  repeat' split at h
  all_goals subst h
  all_goals first
    | exact Or.inl ⟨_, _, rfl⟩
    | exact Or.inr (Or.inl ⟨rfl, _, by assumption, by assumption⟩)
    | exact Or.inr (Or.inr ⟨_, _, by assumption, by assumption, by assumption,
        Or.inl ⟨by assumption, rfl⟩⟩)
    | exact Or.inr (Or.inr ⟨_, _, by assumption, by assumption, by assumption,
        Or.inr ⟨by assumption, rfl⟩⟩)

/-! ### Claims -/

/-- C1: for every split, the splitId used for signing equals
`splitIdOnchain` when that field is non-null and the local database id
otherwise, and this same resolution is used by `generateApproveIntent` in
the issued message, by `submitSignature` in the rebuilt message it
verifies, and by `settleSplit` in the contract call. -/
theorem C1_splitId_resolution (env : Env) (split : Split) :
    resolveSplitIdForSigning split = split.splitIdOnchain.getD split.id
    ∧ (∀ dto salt s2 payload,
        generateApproveIntent env split dto salt = (s2, .ok payload) →
        payload.message.splitId = Nat.repr (resolveSplitIdForSigning split))
    ∧ (∀ now dto d m sg,
        (submitSignature env now split dto).verifyCall = some (d, m, sg) →
        m.splitId = Nat.repr (resolveSplitIdForSigning split))
    ∧ (∀ chainSettle now dto call,
        (settleSplit env chainSettle now split dto).call = some call →
        call.splitId = resolveSplitIdForSigning split) := by
  refine ⟨?_, ?_, ?_, ?_⟩
  · cases h : split.splitIdOnchain <;> simp [resolveSplitIdForSigning, h]
  · intro dto salt s2 payload h
    unfold generateApproveIntent at h
    simp only [] at h
    repeat' split at h
    all_goals first
      | (simp at h
         done)
      | (simp only [Prod.mk.injEq, Except.ok.injEq] at h
         obtain ⟨h1, h2⟩ := h
         subst h2
         rfl)
  · intro now dto d m sg h
    unfold submitSignature at h
    simp only [] at h
    repeat' split at h
    all_goals first
      | (simp at h
         done)
      | (simp only [SubmitOutcome.mk.injEq, Option.some.injEq, Prod.mk.injEq] at h
         obtain ⟨h1, h2, h3⟩ := h
         subst h2
         rfl)
  · intro chainSettle now dto call h
    unfold settleSplit at h
    repeat' split at h
    all_goals first
      | (simp at h
         done)
      | (simp only [Option.some.injEq] at h
         subst h
         rfl)

/-- Witness for C1 at the concrete fixtures: the verification call of a
concrete submission carries the message whose splitId is the resolved one. -/
theorem C1_splitId_resolution_witness :
    (submitSignature fxEnv 50 fxSplit fxSubmitDto).verifyCall =
      some (buildDomain fxEnv,
        storedMessage fxSplit "0xaa" fxLegA 100 (strLower (hexlify fxSalt)), fxGoodSig) ∧
    (storedMessage fxSplit "0xaa" fxLegA 100 (strLower (hexlify fxSalt))).splitId
      = Nat.repr (resolveSplitIdForSigning fxSplit) := by
  refine ⟨by decide, ?_⟩
  exact (C1_splitId_resolution fxEnv fxSplit).2.2.1 50 fxSubmitDto (buildDomain fxEnv)
    (storedMessage fxSplit "0xaa" fxLegA 100 (strLower (hexlify fxSalt))) fxGoodSig (by decide)

/-- C2: once the stored row is found, `submitSignature` rebuilds the typed
data exclusively from stored state — the message amount is the stored leg
amount, the message deadline is the stored intent deadline, the splitId is
the resolved one — recovers the signer from the submitted signature, and
when the recovered signer does not case-insensitively equal the
participant it fails with the invalid-input signer error and the state
(hence a PENDING signature row) is left unchanged. -/
theorem C2_submit_rebuild_and_signer_check
    (env : Env) (now : Int) (split : Split) (dto : SubmitSignatureDto)
    (leg : SplitParticipant) (rec : SignatureRow)
    (hacc : checkSplitAccess env split = .ok ())
    (hset : split.settled = false)
    (hleg : split.participants.find? (fun l => lowEq l.participant (getAddress dto.participant)) = some leg)
    (hamt : Nat.repr leg.amount = dto.amount)
    (hrec : findSignatureRecord split (getAddress dto.participant) (strLower dto.salt) = some rec)
    (hused : rec.status ≠ .USED_ONCHAIN)
    (hvalid : rec.status ≠ .VALID)
    (hgate : dtoDeadlineGate env dto (rowDeadlineUnix rec) = .ok ()) :
    ((storedMessage split (getAddress dto.participant) leg (rowDeadlineUnix rec) (strLower dto.salt)).amount
        = Nat.repr leg.amount
      ∧ (storedMessage split (getAddress dto.participant) leg (rowDeadlineUnix rec) (strLower dto.salt)).deadline
        = toString (rowDeadlineUnix rec)
      ∧ (storedMessage split (getAddress dto.participant) leg (rowDeadlineUnix rec) (strLower dto.salt)).splitId
        = Nat.repr (resolveSplitIdForSigning split))
    ∧ (lowEq (env.recover (buildDomain env)
          (storedMessage split (getAddress dto.participant) leg (rowDeadlineUnix rec) (strLower dto.salt))
          dto.signature) (getAddress dto.participant) = false →
        submitSignature env now split dto =
          ⟨split, .error (.invalidInput "Assinatura inválida: signer diferente do participante"),
            some (buildDomain env,
              storedMessage split (getAddress dto.participant) leg (rowDeadlineUnix rec) (strLower dto.salt),
              dto.signature)⟩) := by
  exact ⟨⟨rfl, rfl, rfl⟩, fun hmis =>
    submit_signer_mismatch env now split dto leg rec hacc hset hleg hamt hrec hused hvalid hgate hmis⟩

/-- Witness for C2: a concrete submission signed by the wrong wallet fails
with the signer error and leaves the concrete PENDING state unchanged. -/
theorem C2_submit_rebuild_and_signer_check_witness :
    submitSignature fxEnv 50 fxSplit { fxSubmitDto with signature := fxOtherSig } =
      ⟨fxSplit, .error (.invalidInput "Assinatura inválida: signer diferente do participante"),
        some (buildDomain fxEnv,
          storedMessage fxSplit "0xaa" fxLegA 100 (strLower (hexlify fxSalt)), fxOtherSig)⟩ ∧
    fxRowPending.status = .PENDING := by
  refine ⟨?_, by decide⟩
  exact (C2_submit_rebuild_and_signer_check fxEnv 50 fxSplit
    { fxSubmitDto with signature := fxOtherSig } fxLegA fxRowPending
    (by decide) (by decide) (by decide) (by decide) (by decide) (by decide) (by decide)
    (by decide)).2 (by decide)

/-- C3: in `submitSignature`, once the signer has been verified, a
non-zero stored deadline in the past marks the row EXPIRED (with the
recorded reason, inside `expiredPost`) and fails with the invalid-input
expiry error; a stored deadline of zero never triggers that branch — the
submission succeeds instead. -/
theorem C3_submit_deadline_expiry
    (env : Env) (now : Int) (split : Split) (dto : SubmitSignatureDto)
    (leg : SplitParticipant) (rec : SignatureRow)
    (hacc : checkSplitAccess env split = .ok ())
    (hset : split.settled = false)
    (hleg : split.participants.find? (fun l => lowEq l.participant (getAddress dto.participant)) = some leg)
    (hamt : Nat.repr leg.amount = dto.amount)
    (hrec : findSignatureRecord split (getAddress dto.participant) (strLower dto.salt) = some rec)
    (hused : rec.status ≠ .USED_ONCHAIN)
    (hvalid : rec.status ≠ .VALID)
    (hgate : dtoDeadlineGate env dto (rowDeadlineUnix rec) = .ok ())
    (hmatch : lowEq (env.recover (buildDomain env)
        (storedMessage split (getAddress dto.participant) leg (rowDeadlineUnix rec) (strLower dto.salt))
        dto.signature) (getAddress dto.participant) = true) :
    (rowDeadlineUnix rec ≠ 0 → rowDeadlineUnix rec < now →
      submitSignature env now split dto =
        ⟨expiredPost split rec.id, .error (.invalidInput "Assinatura expirada"),
          some (buildDomain env,
            storedMessage split (getAddress dto.participant) leg (rowDeadlineUnix rec) (strLower dto.salt),
            dto.signature)⟩)
    ∧ (rowDeadlineUnix rec = 0 →
      submitSignature env now split dto =
        ⟨validPost now split rec.id (getAddress dto.participant) dto.signature, .ok (),
          some (buildDomain env,
            storedMessage split (getAddress dto.participant) leg (rowDeadlineUnix rec) (strLower dto.salt),
            dto.signature)⟩) := by
  constructor
  · intro hdl hlt
    exact submit_expired env now split dto leg rec hacc hset hleg hamt hrec hused hvalid
      hgate hmatch hdl hlt
  · intro h0
    exact submit_success env now split dto leg rec hacc hset hleg hamt hrec hused hvalid
      hgate hmatch (by simp [h0])

/-- Witness for C3: the concrete stored deadline 100 with current time 200
marks the concrete row EXPIRED (including the recorded reason) and fails
with the expiry error. -/
theorem C3_submit_deadline_expiry_witness :
    submitSignature fxEnv 200 fxSplit fxSubmitDto =
      ⟨expiredPost fxSplit 1, .error (.invalidInput "Assinatura expirada"),
        some (buildDomain fxEnv,
          storedMessage fxSplit "0xaa" fxLegA 100 (strLower (hexlify fxSalt)), fxGoodSig)⟩ ∧
    (expiredPost fxSplit 1).signatures.map (fun r => (r.status, r.reason)) =
      [(.EXPIRED, some "Assinatura expirada antes da validação")] := by
  refine ⟨?_, by decide⟩
  exact (C3_submit_deadline_expiry fxEnv 200 fxSplit fxSubmitDto fxLegA fxRowPending
    (by decide) (by decide) (by decide) (by decide) (by decide) (by decide) (by decide)
    (by decide) (by decide)).1 (by decide) (by decide)

/-- C4: with the `(splitId, participant, salt)` row already VALID,
`submitSignature` succeeds and changes nothing whatever signature bytes are
supplied; with the row USED_ONCHAIN it fails with conflict and changes
nothing; and any successful submission followed by the same submission
yields success again with the state unchanged — one VALID row, success
both times. -/
theorem C4_submit_valid_idempotent
    (env : Env) (now : Int) (split : Split) (dto : SubmitSignatureDto) (rec : SignatureRow)
    (hacc : checkSplitAccess env split = .ok ())
    (hset : split.settled = false)
    (hleg : (split.participants.find? (fun l => lowEq l.participant (getAddress dto.participant))).isSome = true)
    (hamt : ∀ leg, split.participants.find? (fun l => lowEq l.participant (getAddress dto.participant)) = some leg →
      Nat.repr leg.amount = dto.amount)
    (hrec : findSignatureRecord split (getAddress dto.participant) (strLower dto.salt) = some rec) :
    (∀ sigHex, rec.status = .VALID →
      submitSignature env now split { dto with signature := sigHex } = ⟨split, .ok (), none⟩)
    ∧ (rec.status = .USED_ONCHAIN →
      submitSignature env now split dto =
        ⟨split, .error (.conflict "Assinatura já utilizada on-chain"), none⟩)
    ∧ (∀ s1 vc, submitSignature env now split dto = ⟨s1, .ok (), vc⟩ →
      submitSignature env now s1 dto = ⟨s1, .ok (), none⟩) := by
  refine ⟨?_, ?_, ?_⟩
  · intro sigHex hv
    exact submit_already_valid env now split { dto with signature := sigHex } rec
      hacc hset hleg hamt hrec hv
  · intro hu
    exact submit_used_onchain env now split dto rec hacc hset hleg hamt hrec hu
  · intro s1 vc h
    rcases submit_cases env now split dto _ h with
      ⟨e, vc', hcontra⟩ | ⟨heq, rec', hfind, hv⟩ | ⟨rec', vc'', hfind, hnu, hnv, hcase⟩
    · have hbad : (Except.ok () : Except EngineError Unit) = Except.error e :=
        congrArg SubmitOutcome.result hcontra
      simp at hbad
    · have h1 : s1 = split := congrArg SubmitOutcome.post heq
      subst h1
      exact submit_already_valid env now s1 dto rec' hacc hset hleg hamt hfind hv
    · rcases hcase with ⟨hcond, hexp⟩ | ⟨hncond, hsucc⟩
      · have hbad : (Except.ok () : Except EngineError Unit)
            = Except.error (EngineError.invalidInput "Assinatura expirada") :=
          congrArg SubmitOutcome.result hexp
        simp at hbad
      · have h1 : s1 = validPost now split rec'.id (getAddress dto.participant) dto.signature :=
          congrArg SubmitOutcome.post hsucc
        subst h1
        have hsig := findSignatureRecord_updateSigRow split rec'.id
          (fun r => { r with status := .VALID, signature := hexToBytes (dto.signature.drop 2) })
          (getAddress dto.participant) (strLower dto.salt) (fun r => ⟨rfl, rfl⟩)
        rw [hfind] at hsig
        simp at hsig
        have hlegmap := findLeg_updateParticipantRow
          (updateSigRow split rec'.id
            (fun r => { r with status := .VALID, signature := hexToBytes (dto.signature.drop 2) }))
          (getAddress dto.participant)
          (fun p => { p with approvedOffchainAt := some now })
          (getAddress dto.participant) (fun p => rfl)
        rw [participants_updateSigRow] at hlegmap
        apply submit_already_valid env now _ dto
          ({ rec' with status := .VALID, signature := hexToBytes (dto.signature.drop 2) })
        · exact hacc
        · exact hset
        · show ((updateParticipantRow _ _ _).participants.find? _).isSome = true
          rw [hlegmap]
          simpa using hleg
        · intro leg hfind'
          rw [show (validPost now split rec'.id (getAddress dto.participant) dto.signature).participants
              = (updateParticipantRow
                  (updateSigRow split rec'.id
                    (fun r => { r with status := .VALID, signature := hexToBytes (dto.signature.drop 2) }))
                  (getAddress dto.participant)
                  (fun p => { p with approvedOffchainAt := some now })).participants from rfl] at hfind'
          rw [hlegmap] at hfind'
          obtain ⟨leg0, hleg0, hleg0eq⟩ := Option.map_eq_some'.mp hfind'
          have hamt0 := hamt leg0 hleg0
          have : leg.amount = leg0.amount := by
            rw [← hleg0eq]
            by_cases hcc : leg0.participant == getAddress dto.participant <;> simp [hcc]
          rw [this]
          exact hamt0
        · exact hsig
        · rfl

set_option maxRecDepth 4000 in
/-- Witness for C4: the concrete successful submission re-submitted is a
success again with no change. -/
theorem C4_submit_valid_idempotent_witness :
    submitSignature fxEnv 50
        (validPost 50 fxSplit 1 "0xaa" fxGoodSig) fxSubmitDto =
      ⟨validPost 50 fxSplit 1 "0xaa" fxGoodSig, .ok (), none⟩ := by
  exact (C4_submit_valid_idempotent fxEnv 50 fxSplit fxSubmitDto fxRowPending
    (by decide) (by decide) (by decide) (by decide) (by decide)).2.2
    (validPost 50 fxSplit 1 "0xaa" fxGoodSig)
    (some (buildDomain fxEnv, storedMessage fxSplit "0xaa" fxLegA 100 (strLower (hexlify fxSalt)), fxGoodSig))
    (by decide)

/-- C5: a client-supplied approval deadline resolves to no-expiry when the
string is "0" (unix 0, stored date null); otherwise it is accepted exactly
when the split has no deadline or the resolved unix value does not exceed
the split's deadline, and rejected with invalid-input when it does. -/
theorem C5_approval_deadline_cap (env : Env) (req : String) (splitDeadline : Option Int) :
    resolveApprovalDeadline env (some "0") splitDeadline = .ok (none, 0)
    ∧ (∀ date unix, req ≠ "" → parseDeadline env req = .ok (date, unix) →
        resolveApprovalDeadline env (some req) splitDeadline =
          if unix = 0 then .ok (none, 0)
          else
            match splitDeadline with
            | some sd =>
              if unix > sd then
                .error (.invalidInput "Deadline solicitado excede o deadline do split")
              else .ok (date, unix)
            | none => .ok (date, unix)) := by
  constructor
  · rfl
  · intro date unix hne hparse
    unfold resolveApprovalDeadline
    simp [hne, hparse]

/-- Witness for C5: a requested deadline of 150 against a split deadline of
100 is rejected, while "0" resolves to no-expiry even with that deadline. -/
theorem C5_approval_deadline_cap_witness :
    resolveApprovalDeadline fxEnv (some "150") (some 100) =
      .error (.invalidInput "Deadline solicitado excede o deadline do split")
    ∧ resolveApprovalDeadline fxEnv (some "0") (some 100) = .ok (none, 0) := by
  constructor
  · have h := (C5_approval_deadline_cap fxEnv "150" (some 100)).2 (some 150) 150
      (by decide) (by decide)
    simpa using h
  · exact (C5_approval_deadline_cap fxEnv "150" (some 100)).1

/-! Fixtures for the `createSplit` claims. -/

/-- A concrete on-chain creation request. -/
def fxCreateDto : CreateSplitDto :=
  { payer := "0x0a", token := "0x0b"
    legs := [{ participant := "0xaa", amount := "12500000" }]
    deadline := none, metaHash := none, createOnchain := true }

/-- The validated form of `fxCreateDto`. -/
def fxChecked : CreateChecked :=
  { payer := "0x0a", token := "0x0b", legs := [("0xaa", 12500000)]
    totalAmount := 12500000, deadlineDate := none, metaHashBytes := none }

/-- C6: in `createSplit` with `createOnchain=true`, a failed chain call or
receipt wait deletes the freshly inserted Split row best-effort and
surfaces the chain-failure error carrying the underlying message, while a
successful receipt without a decoded `SplitCreated` event leaves the Split
persisted with `splitIdOnchain=null` and the call succeeds. -/
theorem C6_create_onchain_failure_cleanup (env : Env) (db : List Split)
    (dto : CreateSplitDto) (newId : Nat) (c : CreateChecked)
    (hchk : createSplitChecks env dto = .ok c)
    (honchain : dto.createOnchain = true)
    (hexec : env.hasExecutor = true)
    (hfresh : ∀ s ∈ db, s.id ≠ newId) :
    (∀ msg, createSplit env (.error msg) db dto newId =
      ⟨db, .error (.invalidInput ("Falha ao criar split on-chain: " ++ msg))⟩)
    ∧ (∀ receipt, findSplitCreatedId env receipt.logs = none →
      createSplit env (.ok receipt) db dto newId =
        ⟨db ++ [insertedSplitRow env c newId], .ok (newId, some receipt.hash)⟩
      ∧ (insertedSplitRow env c newId).splitIdOnchain = none) := by
  refine ⟨fun msg => ?_, fun receipt hev => ⟨?_, rfl⟩⟩
  · exact create_chain_fail env db dto newId c msg hchk honchain hexec hfresh
  · exact create_receipt_no_event env db dto newId c receipt hchk honchain hexec hev

/-- Witness for C6: a concrete reverting chain call leaves the table as it
was and reports the revert message. -/
theorem C6_create_onchain_failure_cleanup_witness :
    createSplit fxEnv (.error "revert") [] fxCreateDto 7 =
      ⟨[], .error (.invalidInput "Falha ao criar split on-chain: revert")⟩ := by
  exact (C6_create_onchain_failure_cleanup fxEnv [] fxCreateDto 7 fxChecked
    (by decide) (by decide) (by decide) (by simp)).1 "revert"

/-- Counterexample to C7 as stated: with no executor key, a concrete
`createSplit` with `createOnchain=true` fails with the misconfiguration
error and nevertheless leaves the freshly inserted Split row persisted. -/
theorem C7_counterexample_insert_survives :
    (createSplit fxEnvNoExec (.error "unused") [] fxCreateDto 7).result =
      .error (.internalError "Executor não configurado (configure EXECUTOR_PRIVATE_KEY)")
    ∧ (createSplit fxEnvNoExec (.error "unused") [] fxCreateDto 7).db ≠ [] := by decide

/-- C7 amended: with no executor key, `settleSplit` never calls the chain,
never succeeds and leaves no durable effect; `createSplit` with
`createOnchain=true` fails with the misconfiguration error, but only after
inserting the Split row, which remains persisted. -/
theorem C7_no_executor_failfast (env : Env) (hexec : env.hasExecutor = false) :
    (∀ chainSettle now split dto,
      (settleSplit env chainSettle now split dto).post = split ∧
      (settleSplit env chainSettle now split dto).call = none ∧
      ∃ e, (settleSplit env chainSettle now split dto).result = .error e)
    ∧ (∀ chainCreate db dto newId c, createSplitChecks env dto = .ok c →
        dto.createOnchain = true →
        createSplit env chainCreate db dto newId =
          ⟨db ++ [insertedSplitRow env c newId],
            .error (.internalError "Executor não configurado (configure EXECUTOR_PRIVATE_KEY)")⟩) := by
  exact ⟨fun cs now split dto => settle_no_executor env cs now split dto hexec,
    fun cc db dto newId c hchk honchain =>
      create_no_executor env cc db dto newId c hchk honchain hexec⟩

/-- Witness for the amended C7 at concrete inputs. -/
theorem C7_no_executor_failfast_witness :
    createSplit fxEnvNoExec (.error "unused") [] fxCreateDto 7 =
      ⟨[insertedSplitRow fxEnvNoExec fxChecked 7],
        .error (.internalError "Executor não configurado (configure EXECUTOR_PRIVATE_KEY)")⟩ := by
  exact (C7_no_executor_failfast fxEnvNoExec (by decide)).2 (.error "unused") [] fxCreateDto 7
    fxChecked (by decide) (by decide)

/-- An `exceptMapM` that returns `ok` relates inputs and outputs pointwise,
in order. -/
theorem exceptMapM_ok_forall₂ {ε α β : Type} (f : α → Except ε β) :
    ∀ (xs : List α) (ys : List β), exceptMapM f xs = .ok ys →
      List.Forall₂ (fun x y => f x = .ok y) xs ys := by
  intro xs
  induction xs with
  | nil =>
    intro ys h
    unfold exceptMapM at h
    simp only [Except.ok.injEq] at h
    subst h
    exact List.Forall₂.nil
  | cons x xs ih =>
    intro ys h
    unfold exceptMapM at h
    split at h
    · exact absurd h (by simp)
    · split at h
      · exact absurd h (by simp)
      · simp only [Except.ok.injEq] at h
        subst h
        exact List.Forall₂.cons (by assumption) (ih _ (by assumption))

/-- What a successful `dbRowToPrepared` produces: participant, salt,
signature, deadline and record id from the stored row, amount from the
participant's leg. -/
theorem dbRowToPrepared_ok (split : Split) (sig : SignatureRow)
    (item : PreparedSignatureItem) (h : dbRowToPrepared split sig = .ok item) :
    item.participant = sig.participant ∧ item.deadline = rowDeadlineUnix sig ∧
    item.salt = hexlify sig.salt ∧ item.signature = hexlify sig.signature ∧
    item.signatureRecordId = sig.id ∧
    ∃ leg, split.participants.find? (fun l => lowEq l.participant sig.participant) = some leg ∧
      item.amount = leg.amount := by
  unfold dbRowToPrepared at h
  repeat' split at h
  all_goals simp_all [bufferToHex]
  all_goals subst h
  all_goals simp_all

/-- C8: when `settleSplit` runs without an explicit items list, the
assembled items are exactly the stored VALID rows in enumeration order —
participant, salt, signature, record id and deadline (0 for null) from the
row, amount from the participant's leg; the call fails with invalid-input
when the item count differs from the participant count; and the contract
call, when issued, carries the per-field projections of the items in that
same order, the `(v, r, s)` columns being the `Signature.from` splits of
the items' signatures, item by item in the same order. -/
theorem C8_settle_from_database (env : Env)
    (chainSettle : SettleCall → Except String String) (now : Int) (split : Split)
    (items : List PreparedSignatureItem)
    (hacc : checkSplitAccess env split = .ok ())
    (hset : split.settled = false)
    (hitems : prepareItemsFromDatabase split = .ok items) :
    List.Forall₂ (fun sig item =>
        item.participant = sig.participant ∧
        item.deadline = rowDeadlineUnix sig ∧
        item.salt = hexlify sig.salt ∧
        item.signature = hexlify sig.signature ∧
        item.signatureRecordId = sig.id ∧
        ∃ leg, split.participants.find? (fun l => lowEq l.participant sig.participant) = some leg ∧
          item.amount = leg.amount)
      (split.signatures.filter (fun sig => sig.status == .VALID)) items
    ∧ (items.length ≠ split.participants.length →
        settleSplit env chainSettle now split ⟨none⟩ =
          ⟨split, .error (.invalidInput "Número de assinaturas não corresponde aos participantes"),
            none⟩)
    ∧ (∀ call, (settleSplit env chainSettle now split ⟨none⟩).call = some call →
        ∃ sigs,
          List.Forall₂ (fun item sig => signatureFrom item.signature = .ok sig) items sigs ∧
          call = mkSettleCall split items sigs ∧
          call.participants = items.map (·.participant) ∧
          call.amounts = items.map (·.amount) ∧
          call.deadlines = items.map (·.deadline) ∧
          call.salts = items.map (·.salt) ∧
          call.vs = sigs.map (·.v) ∧
          call.rs = sigs.map (·.r) ∧
          call.ss = sigs.map (·.s)) := by
  have hset' : settleItems split ⟨none⟩ = .ok items := hitems
  refine ⟨?_, ?_, ?_⟩
  · exact List.Forall₂.imp (fun sig item hxy => dbRowToPrepared_ok split sig item hxy)
      (exceptMapM_ok_forall₂ (dbRowToPrepared split) _ items hitems)
  · intro hlen
    exact settle_count_mismatch env chainSettle now split ⟨none⟩ items hacc hset hset' hlen
  · intro call hcall
    unfold settleSplit at hcall
    simp only [hacc, hset, hset'] at hcall
    repeat' split at hcall
    all_goals first
      | (simp only [Option.some.injEq] at hcall
         subst hcall
         exact ⟨_,
           List.forall₂_map_left_iff.mp
             (exceptMapM_ok_forall₂ signatureFrom _ _ (by assumption)),
           rfl, rfl, rfl, rfl, rfl, rfl, rfl, rfl⟩)
      | exact absurd hcall (by simp)

/-- Items assembled from `fxSplitValid`. -/
def fxRowValidA : SignatureRow :=
  { id := 1, participant := "0xaa", amount := 12500000, deadline := some 100
    salt := fxSalt, signature := hexToBytes (fxGoodSig.drop 2), status := .VALID, reason := none }

/-- `fxSplit` with its row already VALID. -/
def fxSplitValid : Split :=
  { fxSplit with signatures := [fxRowValidA] }

/-- The prepared item of `fxRowValidA`. -/
def fxPreparedA : PreparedSignatureItem :=
  { participant := "0xaa", amount := 12500000, deadline := 100
    salt := hexlify fxSalt, signature := fxGoodSig, signatureRecordId := 1 }

/-- The `Signature.from` split of `fxGoodSig`. -/
def fxVrsA : SigVRS :=
  { v := 27
    r := "0x1111111111111111111111111111111111111111111111111111111111111111"
    s := "0x2222222222222222222222222222222222222222222222222222222222222222" }

set_option maxRecDepth 8000 in
set_option maxHeartbeats 1000000 in
/-- Witness for C8 at the concrete one-leg fixture. -/
theorem C8_settle_from_database_witness :
    (settleSplit fxEnv (fun _ => .ok "0xtxhash") 300 fxSplitValid ⟨none⟩).call
      = some (mkSettleCall fxSplitValid [fxPreparedA] [fxVrsA])
    ∧ (mkSettleCall fxSplitValid [fxPreparedA] [fxVrsA]).participants
      = [fxPreparedA].map (·.participant)
    ∧ (mkSettleCall fxSplitValid [fxPreparedA] [fxVrsA]).vs = [fxVrsA].map (·.v) := by
  have h1 : checkSplitAccess fxEnv fxSplitValid = .ok () := by decide
  have h2 : fxSplitValid.settled = false := by decide
  have h3 : prepareItemsFromDatabase fxSplitValid = .ok [fxPreparedA] := by decide
  have h4 : (settleSplit fxEnv (fun _ => .ok "0xtxhash") 300 fxSplitValid ⟨none⟩).call
      = some (mkSettleCall fxSplitValid [fxPreparedA] [fxVrsA]) := by decide
  obtain ⟨sigs, hf2, hcalleq, hparts, hamts, hdls, hsalts, hvs, hrs, hss⟩ :=
    (C8_settle_from_database fxEnv (fun _ => .ok "0xtxhash") 300 fxSplitValid [fxPreparedA]
      h1 h2 h3).2.2
      (mkSettleCall fxSplitValid [fxPreparedA] [fxVrsA]) h4
  have hsigs : sigs = [fxVrsA] := by
    cases hf2 with
    | cons h1 h2 =>
      cases h2
      have hfv : signatureFrom fxPreparedA.signature = .ok fxVrsA := by decide
      rw [hfv] at h1
      rw [Except.ok.inj h1]
  refine ⟨by decide, hparts, ?_⟩
  rw [hvs, hsigs]

/-- Second leg's VALID row, a different salt and signature. -/
def fxRowValidB : SignatureRow :=
  { id := 2, participant := "0xbb", amount := 12500000, deadline := some 100
    salt := fxSaltB, signature := hexToBytes (fxOtherSig.drop 2), status := .VALID, reason := none }

/-- Two-leg split, both legs with VALID rows. -/
def fxSplit2 : Split :=
  { fxSplit with participants := [fxLegA, fxLegB], signatures := [fxRowValidA, fxRowValidB] }

/-- The explicit settle item naming participant `0xaa` and its salt. -/
def fxItemDtoA : SettleItemDto :=
  { participant := "0xaa", amount := "12500000", deadline := "100"
    salt := hexlify fxSalt, signature := fxGoodSig }

set_option maxRecDepth 8000 in
set_option maxHeartbeats 2000000 in
/-- C10: `settleSplit` with an explicit items list accepts a payload that
repeats the same `(participant, salt)` item to reach the participant
count: the concrete duplicate payload (a canonical v=27 signature, so
`Signature.from` accepts it) passes every per-item check, is submitted
on-chain and committed — the split ends settled while the other
participant's VALID signature row is never consumed. -/
theorem C10_settle_duplicate_items :
    fxSplit2.participants.length = 2
    ∧ signatureFrom fxGoodSig = .ok fxVrsA
    ∧ (settleSplit fxEnv (fun _ => .ok "0xtx") 300 fxSplit2
        ⟨some [fxItemDtoA, fxItemDtoA]⟩).result = .ok "0xtx"
    ∧ (settleSplit fxEnv (fun _ => .ok "0xtx") 300 fxSplit2
        ⟨some [fxItemDtoA, fxItemDtoA]⟩).call
      = some (mkSettleCall fxSplit2 [fxPreparedA, fxPreparedA] [fxVrsA, fxVrsA])
    ∧ (settleSplit fxEnv (fun _ => .ok "0xtx") 300 fxSplit2
        ⟨some [fxItemDtoA, fxItemDtoA]⟩).post.settled = true
    ∧ (settleSplit fxEnv (fun _ => .ok "0xtx") 300 fxSplit2
        ⟨some [fxItemDtoA, fxItemDtoA]⟩).post.signatures.map (fun r => (r.participant, r.status))
      = [("0xaa", .USED_ONCHAIN), ("0xbb", .VALID)] := by decide

/-! ### The signature status state machine (C9) -/

/-- The allowed evolution of one row's status across one engine operation:
unchanged, or one edge of the graph PENDING → {VALID, EXPIRED, REJECTED},
VALID → USED_ONCHAIN. -/
def statusStep (a b : SignatureStatus) : Bool :=
  a == b
    || (a == .PENDING && (b == .VALID || b == .EXPIRED || b == .REJECTED))
    || (a == .VALID && b == .USED_ONCHAIN)

theorem statusStep_refl (a : SignatureStatus) : statusStep a a = true := by
  cases a <;> rfl

/-- One engine operation at time `t` taking the split's database state from
`s` to `s2`: any environment, any request payload, any chain outcome. -/
inductive EngineStep : Int → Split → Split → Prop
  | intent (env : Env) (t : Int) (dto : ApproveIntentDto) (salt : Bytes)
      {s s2 : Split} (res : Except EngineError TypedDataPayload)
      (h : generateApproveIntent env s dto salt = (s2, res)) : EngineStep t s s2
  | submit (env : Env) (t : Int) (dto : SubmitSignatureDto) {s : Split}
      (o : SubmitOutcome) (h : submitSignature env t s dto = o) :
      EngineStep t s o.post
  | settle (env : Env) (chainSettle : SettleCall → Except String String) (t : Int)
      (dto : SettleSplitDto) {s : Split} (o : SettleOutcome)
      (h : settleSplit env chainSettle t s dto = o) : EngineStep t s o.post

/-- States reachable through the engine under a monotone clock, starting
from a freshly created split (no signature rows yet). -/
inductive Reach : Int → Split → Prop
  | init (t : Int) (s : Split) (h : s.signatures = []) : Reach t s
  | step {t t2 : Int} {s s2 : Split} (hr : Reach t s) (hle : t ≤ t2)
      (hstep : EngineStep t2 s s2) : Reach t2 s2

/-- The row invariant the engine maintains: distinct row ids, no REJECTED
row (the engine never writes that status), and every EXPIRED row carries a
non-zero stored deadline lying strictly before the current time. -/
def RowsInv (t : Int) (s : Split) : Prop :=
  (s.signatures.map (·.id)).Nodup ∧
  ∀ r ∈ s.signatures, r.status ≠ .REJECTED ∧
    (r.status = .EXPIRED → rowDeadlineUnix r ≠ 0 ∧ rowDeadlineUnix r < t)

theorem rowsInv_mono {t t2 : Int} (hle : t ≤ t2) {s : Split} (h : RowsInv t s) :
    RowsInv t2 s :=
  ⟨h.1, fun r hr => ⟨(h.2 r hr).1, fun he =>
    ⟨((h.2 r hr).2 he).1, lt_of_lt_of_le ((h.2 r hr).2 he).2 hle⟩⟩⟩

theorem mem_le_foldr_max (l : List Nat) : ∀ x ∈ l, x ≤ l.foldr max 0 := by
  induction l with
  | nil => simp
  | cons a as ih =>
    intro x hx
    rcases List.mem_cons.mp hx with hx | hx
    · subst hx
      exact le_max_left _ _
    · exact le_trans (ih x hx) (le_max_right _ _)

/-- The autoincrement id of a new intent row differs from every existing
row id. -/
theorem freshSigId_not_mem (s : Split) (r : SignatureRow) (hr : r ∈ s.signatures) :
    r.id ≠ freshSigId s := by
  have hle := mem_le_foldr_max (s.signatures.map (·.id)) r.id (List.mem_map_of_mem _ hr)
  unfold freshSigId
  omega

/-- With distinct ids, a row is determined by its id. -/
theorem row_id_inj {s : Split} (hnd : (s.signatures.map (·.id)).Nodup)
    {r1 r2 : SignatureRow} (h1 : r1 ∈ s.signatures) (h2 : r2 ∈ s.signatures)
    (hid : r1.id = r2.id) : r1 = r2 :=
  List.inj_on_of_nodup_map hnd h1 h2 hid

/-- Post-state shape of `generateApproveIntent`: unchanged, or one
appended PENDING row with the fresh id. -/
theorem intent_cases (env : Env) (dto : ApproveIntentDto) (salt : Bytes)
    {s s2 : Split} (res : Except EngineError TypedDataPayload)
    (h : generateApproveIntent env s dto salt = (s2, res)) :
    s2 = s ∨ ∃ row : SignatureRow,
      s2 = { s with signatures := s.signatures ++ [row] } ∧
      row.status = .PENDING ∧ row.id = freshSigId s := by
  unfold generateApproveIntent at h
  simp only [] at h
  repeat' split at h
  all_goals injection h with h1 h2
  all_goals subst h1
  all_goals first
    | exact Or.inl rfl
    | exact Or.inr ⟨_, rfl, rfl, rfl⟩

/-- Status transitions and invariant preservation of
`generateApproveIntent`. -/
theorem intent_trans (env : Env) (t : Int) (dto : ApproveIntentDto) (salt : Bytes)
    {s s2 : Split} (res : Except EngineError TypedDataPayload)
    (h : generateApproveIntent env s dto salt = (s2, res)) (hinv : RowsInv t s) :
    (∀ r ∈ s.signatures, ∀ r2 ∈ s2.signatures, r.id = r2.id →
      statusStep r.status r2.status = true)
    ∧ (∀ r2 ∈ s2.signatures, (∀ r ∈ s.signatures, r.id ≠ r2.id) → r2.status = .PENDING)
    ∧ RowsInv t s2 := by
  rcases intent_cases env dto salt res h with heq | ⟨row, heq, hpend, hid⟩
  · subst heq
    refine ⟨?_, ?_, hinv⟩
    · intro r hr r2 hr2 hidr
      rw [row_id_inj hinv.1 hr hr2 hidr]
      exact statusStep_refl _
    · intro r2 hr2 hnone
      exact absurd rfl (hnone r2 hr2)
  · subst heq
    refine ⟨?_, ?_, ?_, ?_⟩
    · intro r hr r2 hr2 hidr
      rcases List.mem_append.mp hr2 with hr2 | hr2
      · rw [row_id_inj hinv.1 hr hr2 hidr]
        exact statusStep_refl _
      · rw [List.mem_singleton.mp hr2] at hidr
        rw [hid] at hidr
        exact absurd hidr (freshSigId_not_mem s r hr)
    · intro r2 hr2 hnone
      rcases List.mem_append.mp hr2 with hr2 | hr2
      · exact absurd rfl (hnone r2 hr2)
      · rw [List.mem_singleton.mp hr2]
        exact hpend
    · show ((s.signatures ++ [row]).map (·.id)).Nodup
      rw [List.map_append]
      rw [List.nodup_append]
      refine ⟨hinv.1, List.nodup_singleton _, ?_⟩
      intro x hx hx2
      simp only [List.map_cons, List.map_nil, List.mem_singleton] at hx2
      rcases List.mem_map.mp hx with ⟨r, hr, hrid⟩
      exact absurd (by omega : r.id = freshSigId s) (freshSigId_not_mem s r hr)
    · intro r hr
      rcases List.mem_append.mp hr with hr | hr
      · exact hinv.2 r hr
      · rw [List.mem_singleton.mp hr, hpend]
        exact ⟨by simp, by simp⟩

/-- A found signature record is one of the stored rows. -/
theorem findSignatureRecord_mem {s : Split} {a b : String} {rec : SignatureRow}
    (h : findSignatureRecord s a b = some rec) : rec ∈ s.signatures :=
  List.mem_of_find?_eq_some h

/-- Transition triple for an operation that leaves the signature table
unchanged. -/
theorem unchanged_triple {t : Int} {s s2 : Split} (hsig : s2.signatures = s.signatures)
    (hinv : RowsInv t s) :
    (∀ r ∈ s.signatures, ∀ r2 ∈ s2.signatures, r.id = r2.id →
      statusStep r.status r2.status = true)
    ∧ (∀ r2 ∈ s2.signatures, (∀ r ∈ s.signatures, r.id ≠ r2.id) → r2.status = .PENDING)
    ∧ RowsInv t s2 := by
  refine ⟨?_, ?_, ?_⟩
  · intro r hr r2 hr2 hidr
    rw [hsig] at hr2
    rw [row_id_inj hinv.1 hr hr2 hidr]
    exact statusStep_refl _
  · intro r2 hr2 hnone
    rw [hsig] at hr2
    exact absurd rfl (hnone r2 hr2)
  · unfold RowsInv
    rw [hsig]
    exact hinv

/-- Transition triple for an operation that rewrites the single row with a
given id through `f`, provided the row moved along an allowed edge and the
written row respects the invariant. -/
theorem map_update_triple {t : Int} {s : Split} {i : Nat}
    {f : SignatureRow → SignatureRow} {s2 : Split}
    (hsig : s2.signatures = s.signatures.map (fun r => if r.id == i then f r else r))
    (hfid : ∀ r, (f r).id = r.id)
    (hinv : RowsInv t s)
    (rec : SignatureRow) (hrec : rec ∈ s.signatures) (hreci : rec.id = i)
    (hstep : statusStep rec.status (f rec).status = true)
    (hfpres : (f rec).status ≠ .REJECTED ∧
      ((f rec).status = .EXPIRED → rowDeadlineUnix (f rec) ≠ 0 ∧ rowDeadlineUnix (f rec) < t)) :
    (∀ r ∈ s.signatures, ∀ r2 ∈ s2.signatures, r.id = r2.id →
      statusStep r.status r2.status = true)
    ∧ (∀ r2 ∈ s2.signatures, (∀ r ∈ s.signatures, r.id ≠ r2.id) → r2.status = .PENDING)
    ∧ RowsInv t s2 := by
  have hgid : ∀ r : SignatureRow, (if r.id == i then f r else r).id = r.id := by
    intro r
    by_cases hc : r.id == i <;> simp [hc, hfid]
  refine ⟨?_, ?_, ?_, ?_⟩
  · intro r hr r2 hr2 hidr
    rw [hsig] at hr2
    rcases List.mem_map.mp hr2 with ⟨r0, hr0, hr0eq⟩
    have : r = r0 := row_id_inj hinv.1 hr hr0 (by rw [hidr, ← hr0eq, hgid])
    subst this
    rw [← hr0eq]
    by_cases hc : r.id == i
    · have : r = rec := row_id_inj hinv.1 hr hrec (by rw [hreci]; exact (beq_iff_eq.mp hc))
      subst this
      simp only [hc, if_true]
      exact hstep
    · simp only [hc, if_false]
      exact statusStep_refl _
  · intro r2 hr2 hnone
    rw [hsig] at hr2
    rcases List.mem_map.mp hr2 with ⟨r0, hr0, hr0eq⟩
    have := hnone r0 hr0
    rw [← hr0eq, hgid] at this
    exact absurd rfl this
  · show (s2.signatures.map (·.id)).Nodup
    rw [hsig, List.map_map]
    have : ((fun r : SignatureRow => r.id) ∘ fun r => if r.id == i then f r else r)
        = fun r : SignatureRow => r.id := by
      funext r
      exact hgid r
    rw [this]
    exact hinv.1
  · intro r2 hr2
    rw [hsig] at hr2
    rcases List.mem_map.mp hr2 with ⟨r0, hr0, hr0eq⟩
    by_cases hc : r0.id == i
    · have : r0 = rec := row_id_inj hinv.1 hr0 hrec (by rw [hreci]; exact (beq_iff_eq.mp hc))
      subst this
      rw [← hr0eq]
      simp only [hc, if_true]
      exact hfpres
    · rw [← hr0eq]
      simp only [hc, if_false]
      exact hinv.2 r0 hr0

/-- Status transitions and invariant preservation of `submitSignature`. -/
theorem submit_trans (env : Env) (t : Int) (dto : SubmitSignatureDto) {s : Split}
    (o : SubmitOutcome) (h : submitSignature env t s dto = o) (hinv : RowsInv t s) :
    (∀ r ∈ s.signatures, ∀ r2 ∈ o.post.signatures, r.id = r2.id →
      statusStep r.status r2.status = true)
    ∧ (∀ r2 ∈ o.post.signatures, (∀ r ∈ s.signatures, r.id ≠ r2.id) → r2.status = .PENDING)
    ∧ RowsInv t o.post := by
  rcases submit_cases env t s dto o h with
    ⟨e, vc, heq⟩ | ⟨heq, rec, hfind, hv⟩ | ⟨rec, vc, hfind, hnu, hnv, hcase⟩
  · exact unchanged_triple (congrArg (fun x => SubmitOutcome.post x |>.signatures) heq) hinv
  · exact unchanged_triple (congrArg (fun x => SubmitOutcome.post x |>.signatures) heq) hinv
  · have hrecmem := findSignatureRecord_mem hfind
    have hrecst : rec.status = .PENDING ∨ rec.status = .EXPIRED := by
      have := (hinv.2 rec hrecmem).1
      cases hst : rec.status <;> simp_all
    rcases hcase with ⟨hcond, heq⟩ | ⟨hncond, heq⟩
    · have hpost : o.post.signatures
          = s.signatures.map (fun r => if r.id == rec.id then
              { r with status := .EXPIRED,
                       reason := some "Assinatura expirada antes da validação" } else r) :=
        congrArg (fun x => SubmitOutcome.post x |>.signatures) heq
      refine map_update_triple hpost (fun r => rfl) hinv rec hrecmem rfl ?_ ?_
      · rcases hrecst with hst | hst <;> rw [hst] <;> rfl
      · exact ⟨by simp, fun _ => hcond⟩
    · have hrecpend : rec.status = .PENDING := by
        rcases hrecst with hst | hst
        · exact hst
        · exact absurd ((hinv.2 rec hrecmem).2 hst) hncond
      have hpost : o.post.signatures
          = s.signatures.map (fun r => if r.id == rec.id then
              { r with status := .VALID,
                       signature := hexToBytes (dto.signature.drop 2) } else r) :=
        congrArg (fun x => SubmitOutcome.post x |>.signatures) heq
      refine map_update_triple hpost (fun r => rfl) hinv rec hrecmem rfl ?_ ?_
      · rw [hrecpend]
        rfl
      · exact ⟨by simp, by simp⟩

/-- Post-state shape of `settleSplit`: unchanged, or `settlePost` over
successfully assembled items. -/
theorem settle_cases (env : Env) (chainSettle : SettleCall → Except String String)
    (t : Int) (dto : SettleSplitDto) {s : Split} (o : SettleOutcome)
    (h : settleSplit env chainSettle t s dto = o) :
    o.post = s ∨ ∃ items, settleItems s dto = .ok items ∧ o.post = settlePost t s items := by
  unfold settleSplit at h
  repeat' split at h
  all_goals subst h
  all_goals first
    | exact Or.inl rfl
    | exact Or.inr ⟨_, by assumption, rfl⟩

/-- Membership form of `exceptMapM` success. -/
theorem exceptMapM_ok_mem {α β : Type} (f : α → Except EngineError β) :
    ∀ (xs : List α) (ys : List β), exceptMapM f xs = .ok ys →
      ∀ y ∈ ys, ∃ x ∈ xs, f x = .ok y := by
  intro xs
  induction xs with
  | nil =>
    intro ys h
    unfold exceptMapM at h
    simp only [Except.ok.injEq] at h
    subst h
    simp
  | cons x xs ih =>
    intro ys h
    unfold exceptMapM at h
    split at h
    · exact absurd h (by simp)
    · split at h
      · exact absurd h (by simp)
      · simp only [Except.ok.injEq] at h
        subst h
        intro y hy
        rcases List.mem_cons.mp hy with hy | hy
        · exact ⟨x, List.mem_cons_self x xs, by rw [hy]; assumption⟩
        · rcases ih _ (by assumption) y hy with ⟨x0, hx0, hfx0⟩
          exact ⟨x0, List.mem_cons_of_mem x hx0, hfx0⟩

/-- A successful `payloadItemToPrepared` consumed a stored VALID row whose
id it records. -/
theorem payloadItemToPrepared_ok (split : Split) (item : SettleItemDto)
    (p : PreparedSignatureItem) (h : payloadItemToPrepared split item = .ok p) :
    ∃ rec ∈ split.signatures, rec.id = p.signatureRecordId ∧ rec.status = .VALID := by
  unfold payloadItemToPrepared at h
  simp only [] at h
  repeat' split at h
  all_goals first
    | (simp only [Except.ok.injEq] at h
       subst h
       exact ⟨_, findSignatureRecord_mem (by assumption), rfl,
         not_not.mp (by assumption)⟩)
    | exact absurd h (by simp)

/-- Every assembled settle item consumes a stored VALID row whose id it
records — on both assembly paths. -/
theorem settleItems_valid (s : Split) (dto : SettleSplitDto)
    (items : List PreparedSignatureItem) (h : settleItems s dto = .ok items) :
    ∀ item ∈ items, ∃ rec ∈ s.signatures,
      rec.id = item.signatureRecordId ∧ rec.status = .VALID := by
  have hdb : prepareItemsFromDatabase s = .ok items →
      ∀ item ∈ items, ∃ rec ∈ s.signatures,
        rec.id = item.signatureRecordId ∧ rec.status = .VALID := by
    intro hp item hitem
    rcases exceptMapM_ok_mem (dbRowToPrepared s) _ items hp item hitem with ⟨sig, hsig, hok⟩
    have hmem := (List.mem_filter.mp hsig).1
    have hst := (List.mem_filter.mp hsig).2
    refine ⟨sig, hmem, ?_, by simpa using hst⟩
    exact ((dbRowToPrepared_ok s sig item hok).2.2.2.2.1).symm
  unfold settleItems at h
  split at h
  · split at h
    · intro item hitem
      rcases exceptMapM_ok_mem (payloadItemToPrepared s) _ items h item hitem with
        ⟨dtoItem, hdtoItem, hok⟩
      exact payloadItemToPrepared_ok s dtoItem item hok
    · exact hdb h
  · exact hdb h

/-- The participant-timestamp half of the settle transaction does not
touch the signature table. -/
theorem foldl_updateParticipant_signatures (t : Int) (items : List PreparedSignatureItem) :
    ∀ base : Split,
      (items.foldl (fun st item => updateParticipantRow st item.participant
          (fun p => { p with usedOnchainAt := some t })) base).signatures
        = base.signatures := by
  induction items with
  | nil => intro base; rfl
  | cons it its ih =>
    intro base
    rw [List.foldl_cons, ih]
    rfl

/-- The signature half of the settle transaction marks exactly the rows
whose id occurs among the items USED_ONCHAIN. -/
theorem foldl_updateSig_signatures (items : List PreparedSignatureItem) :
    ∀ base : Split,
      (items.foldl (fun st item => updateSigRow st item.signatureRecordId
          (fun r => { r with status := .USED_ONCHAIN })) base).signatures
        = base.signatures.map (fun r =>
            if r.id ∈ items.map (·.signatureRecordId)
            then { r with status := .USED_ONCHAIN } else r) := by
  induction items with
  | nil =>
    intro base
    simp
  | cons it its ih =>
    intro base
    rw [List.foldl_cons, ih]
    show (base.signatures.map _).map _ = _
    rw [List.map_map]
    apply List.map_congr_left
    intro r _
    by_cases hc : r.id = it.signatureRecordId
    · by_cases hc2 : r.id ∈ its.map (·.signatureRecordId) <;>
        simp [Function.comp, hc, hc2, List.mem_cons]
    · by_cases hc2 : r.id ∈ its.map (·.signatureRecordId) <;>
        simp [Function.comp, hc, hc2, List.mem_cons]

/-- The signature table after `settlePost`. -/
theorem settlePost_signatures (t : Int) (s : Split) (items : List PreparedSignatureItem) :
    (settlePost t s items).signatures
      = s.signatures.map (fun r =>
          if r.id ∈ items.map (·.signatureRecordId)
          then { r with status := .USED_ONCHAIN } else r) := by
  unfold settlePost
  rw [foldl_updateSig_signatures, foldl_updateParticipant_signatures]

/-- Transition triple for an operation that marks a predicate-selected set
of rows USED_ONCHAIN, provided every selected row was VALID. -/
theorem map_used_triple {t : Int} {s : Split} {P : SignatureRow → Prop}
    [DecidablePred P] {s2 : Split}
    (hsig : s2.signatures = s.signatures.map
      (fun r => if P r then { r with status := .USED_ONCHAIN } else r))
    (hvalid : ∀ r ∈ s.signatures, P r → r.status = .VALID)
    (hinv : RowsInv t s) :
    (∀ r ∈ s.signatures, ∀ r2 ∈ s2.signatures, r.id = r2.id →
      statusStep r.status r2.status = true)
    ∧ (∀ r2 ∈ s2.signatures, (∀ r ∈ s.signatures, r.id ≠ r2.id) → r2.status = .PENDING)
    ∧ RowsInv t s2 := by
  have hgid : ∀ r : SignatureRow,
      (if P r then { r with status := SignatureStatus.USED_ONCHAIN } else r).id = r.id := by
    intro r
    by_cases hc : P r <;> simp [hc]
  refine ⟨?_, ?_, ?_, ?_⟩
  · intro r hr r2 hr2 hidr
    rw [hsig] at hr2
    rcases List.mem_map.mp hr2 with ⟨r0, hr0, hr0eq⟩
    have : r = r0 := row_id_inj hinv.1 hr hr0 (by rw [hidr, ← hr0eq, hgid])
    subst this
    rw [← hr0eq]
    by_cases hc : P r
    · rw [hvalid r hr hc]
      simp only [hc, if_true]
      rfl
    · simp only [hc, if_false]
      exact statusStep_refl _
  · intro r2 hr2 hnone
    rw [hsig] at hr2
    rcases List.mem_map.mp hr2 with ⟨r0, hr0, hr0eq⟩
    have := hnone r0 hr0
    rw [← hr0eq, hgid] at this
    exact absurd rfl this
  · show (s2.signatures.map (·.id)).Nodup
    rw [hsig, List.map_map]
    have : ((fun r : SignatureRow => r.id) ∘ fun r =>
        if P r then { r with status := SignatureStatus.USED_ONCHAIN } else r)
        = fun r : SignatureRow => r.id := by
      funext r
      exact hgid r
    rw [this]
    exact hinv.1
  · intro r2 hr2
    rw [hsig] at hr2
    rcases List.mem_map.mp hr2 with ⟨r0, hr0, hr0eq⟩
    by_cases hc : P r0
    · rw [← hr0eq]
      simp only [hc, if_true]
      exact ⟨by simp, by simp⟩
    · rw [← hr0eq]
      simp only [hc, if_false]
      exact hinv.2 r0 hr0

/-- Status transitions and invariant preservation of `settleSplit`. -/
theorem settle_trans (env : Env) (chainSettle : SettleCall → Except String String)
    (t : Int) (dto : SettleSplitDto) {s : Split} (o : SettleOutcome)
    (h : settleSplit env chainSettle t s dto = o) (hinv : RowsInv t s) :
    (∀ r ∈ s.signatures, ∀ r2 ∈ o.post.signatures, r.id = r2.id →
      statusStep r.status r2.status = true)
    ∧ (∀ r2 ∈ o.post.signatures, (∀ r ∈ s.signatures, r.id ≠ r2.id) → r2.status = .PENDING)
    ∧ RowsInv t o.post := by
  rcases settle_cases env chainSettle t dto o h with heq | ⟨items, hitems, heq⟩
  · exact unchanged_triple (congrArg Split.signatures heq) hinv
  · have hval := settleItems_valid s dto items hitems
    have hsig : o.post.signatures = s.signatures.map
        (fun r => if r.id ∈ items.map (·.signatureRecordId)
          then { r with status := .USED_ONCHAIN } else r) := by
      rw [heq]
      exact settlePost_signatures t s items
    refine map_used_triple hsig ?_ hinv
    intro r hr hmem
    rcases List.mem_map.mp hmem with ⟨item, hitem, hitemid⟩
    rcases hval item hitem with ⟨rec, hrecmem, hrecid, hrecst⟩
    have : rec = r := row_id_inj hinv.1 hrecmem hr (by omega)
    rw [← this]
    exact hrecst

/-- One engine step preserves the transition discipline and the row
invariant. -/
theorem engineStep_trans {t : Int} {s s2 : Split} (hstep : EngineStep t s s2)
    (hinv : RowsInv t s) :
    (∀ r ∈ s.signatures, ∀ r2 ∈ s2.signatures, r.id = r2.id →
      statusStep r.status r2.status = true)
    ∧ (∀ r2 ∈ s2.signatures, (∀ r ∈ s.signatures, r.id ≠ r2.id) → r2.status = .PENDING)
    ∧ RowsInv t s2 := by
  cases hstep with
  | intent env t dto salt res h => exact intent_trans env t dto salt res h hinv
  | submit env t dto o h => exact submit_trans env t dto o h hinv
  | settle env cs t dto o h => exact settle_trans env cs t dto o h hinv

/-- Every reachable state satisfies the row invariant. -/
theorem reach_inv {t : Int} {s : Split} (h : Reach t s) : RowsInv t s := by
  induction h with
  | init t s hsig => exact ⟨by simp [hsig], by simp [hsig]⟩
  | step hr hle hstep ih =>
    exact (engineStep_trans hstep (rowsInv_mono hle ih)).2.2

/-- C9: along every engine operation applied to a reachable state under a
monotone clock, each stored signature row's status either stays unchanged
or moves along an allowed edge — PENDING → VALID, PENDING → EXPIRED,
PENDING → REJECTED, or VALID → USED_ONCHAIN (`statusStep`); in particular
an EXPIRED or REJECTED row is never moved to VALID and a USED_ONCHAIN row
never changes; and any row that appears during a step is created PENDING. -/
theorem C9_status_machine (t : Int) (s : Split) (hreach : Reach t s)
    (t2 : Int) (hle : t ≤ t2) (s2 : Split) (hstep : EngineStep t2 s s2) :
    (∀ r ∈ s.signatures, ∀ r2 ∈ s2.signatures, r.id = r2.id →
      statusStep r.status r2.status = true)
    ∧ (∀ r2 ∈ s2.signatures, (∀ r ∈ s.signatures, r.id ≠ r2.id) → r2.status = .PENDING) := by
  have hinv := rowsInv_mono hle (reach_inv hreach)
  exact ⟨(engineStep_trans hstep hinv).1, (engineStep_trans hstep hinv).2.1⟩

/-- The fixture split before any intent row. -/
def fxSplit0 : Split := { fxSplit with signatures := [] }

/-- The intent request that produces `fxRowPending`. -/
def fxIntentDto : ApproveIntentDto := { participant := "0xaa", deadline := some "100" }

set_option maxRecDepth 8000 in
/-- Witness for C9 on a concrete reachable trace: create, issue the
intent, then submit after the deadline — the concrete row moves
PENDING → EXPIRED, an allowed transition. -/
theorem C9_status_machine_witness :
    statusStep fxRowPending.status
      ({ fxRowPending with status := .EXPIRED,
                            reason := some "Assinatura expirada antes da validação" }).status
      = true := by
  have hgen : generateApproveIntent fxEnv fxSplit0 fxIntentDto fxSalt
      = (fxSplit, (generateApproveIntent fxEnv fxSplit0 fxIntentDto fxSalt).2) := by
    decide
  have hreach : Reach 0 fxSplit :=
    Reach.step (Reach.init 0 fxSplit0 rfl) le_rfl
      (EngineStep.intent fxEnv 0 fxIntentDto fxSalt _ hgen)
  exact (C9_status_machine 0 fxSplit hreach 200 (by omega) _
    (EngineStep.submit fxEnv 200 fxSubmitDto _ rfl)).1
    fxRowPending (by decide)
    { fxRowPending with status := .EXPIRED,
                         reason := some "Assinatura expirada antes da validação" }
    (by decide) (by decide)

end AB
